import Mathlib

/-!
Verification development for the contract pattern-analysis pipeline
(clause segmentation, clause categorization, contract-type classification,
risk scoring/aggregation).

The Python source (core/clause_extractor.py, core/contract_classifier.py,
core/risk_assessor.py, app.py) is shallowly embedded below:
  * text is `List Char` (`Str`); Python floats are modelled as exact
    rationals `ℚ`, with Python's `round(x, n)` modelled as decimal
    round-half-to-even (`pyRound`);
  * Python regular expressions are compiled by hand into an explicit
    syntax tree `RE` and run by a fuel-based backtracking matcher with
    Python semantics (leftmost match, ordered alternation, greedy/lazy
    quantifiers, IGNORECASE / MULTILINE / DOTALL flags, word boundaries,
    lookahead); the original pattern text is kept in comments next to
    each compiled pattern;
  * mutable object state (`self.findings`, `self.clauses`, `self.result`)
    is threaded explicitly through state-passing functions.
-/

/- Core marks rational arithmetic `@[irreducible]`, which blocks the
kernel-level evaluation used to settle the concrete scenarios below;
restore the definitional behaviour locally (this changes no value). -/
attribute [local semireducible] Rat.add Rat.mul Rat.sub Rat.inv

/-- Python text is modelled as a list of characters. -/
abbrev Str := List Char

/-- ASCII lower-casing of one character (inputs under study are ASCII;
Python `str.lower` agrees with this on ASCII). -/
def asciiLowerC (c : Char) : Char :=
  if 'A' ≤ c ∧ c ≤ 'Z' then Char.ofNat (c.toNat + 32) else c

/-- ASCII upper-casing of one character. -/
def asciiUpperC (c : Char) : Char :=
  if 'a' ≤ c ∧ c ≤ 'z' then Char.ofNat (c.toNat - 32) else c

/-- Python `str.lower()` on ASCII text. -/
def asciiLower (s : Str) : Str := s.map asciiLowerC

/-- Case-swap of one ASCII character, used for IGNORECASE matching. -/
def swapCaseC (c : Char) : Char :=
  if 'a' ≤ c ∧ c ≤ 'z' then asciiUpperC c
  else if 'A' ≤ c ∧ c ≤ 'Z' then asciiLowerC c
  else c

/-- The characters Python's `str.strip()` removes and `\s` matches
(ASCII whitespace; the documents under study contain no Unicode spaces). -/
def isPySpace (c : Char) : Bool :=
  c = ' ' ∨ c = '\t' ∨ c = '\n' ∨ c = '\r' ∨ c = Char.ofNat 11 ∨ c = Char.ofNat 12

/-- Python `str.strip()`. -/
def pyStrip (s : Str) : Str :=
  ((s.dropWhile isPySpace).reverse.dropWhile isPySpace).reverse

/-- Python slice `s[a:b]` for `0 ≤ a ≤ b` (out-of-range indices clamp). -/
def sliceL (s : Str) (a b : Nat) : Str := (s.drop a).take (b - a)

/-- Python word character for `\b`: alphanumeric or underscore. -/
def isWordC (c : Char) : Bool := c.isAlphanum ∨ c = '_'

/-- Length of a list by a forced-accumulator loop.  Extensionally equal
to `List.length` (`lenK_eq` below); written this way because the
kernel-level evaluation used for the concrete scenarios needs
constant-stack reduction on documents a few thousand characters long. -/
def lenKAux {α : Type} : List α → Nat → Nat
  | [], n => n
  | _ :: t, 0 => lenKAux t 1
  | _ :: t, Nat.succ n => lenKAux t (n + 2)

def lenK {α : Type} (l : List α) : Nat := lenKAux l 0

theorem lenKAux_eq {α : Type} : ∀ (l : List α) (n : Nat), lenKAux l n = l.length + n
  | [], n => by simp [lenKAux]
  | _ :: t, 0 => by simp [lenKAux, lenKAux_eq t 1]
  | _ :: t, Nat.succ n => by
    simp only [lenKAux, lenKAux_eq t (n + 2), List.length_cons]
    omega

theorem lenK_eq {α : Type} (l : List α) : lenK l = l.length := by
  simp [lenK, lenKAux_eq]

/-- Decide whether `pat` occurs at the front of `s` (helper for substring
search). -/
def isStrAt : Str → Str → Bool
  | [], _ => true
  | _ :: _, [] => false
  | p :: ps, c :: cs => p = c ∧ isStrAt ps cs

/-- Python `pat in s` (substring containment). -/
def isSubstr (pat s : Str) : Bool :=
  match s with
  | [] => isStrAt pat []
  | _ :: cs => isStrAt pat s ∨ isSubstr pat cs

/-- Python `s.count(pat)` for nonempty `pat`: number of non-overlapping
occurrences scanning left to right.  Structural recursion on a fuel
that starts at the length of `s` and never runs out. -/
def countSubstrF (pat : Str) : Nat → Str → Nat
  | _, [] => 0
  | 0, _ => 0
  | Nat.succ fuel, c :: cs =>
    if isStrAt pat (c :: cs) then
      match pat with
      | [] => 0
      | _ :: ps => 1 + countSubstrF pat fuel (cs.drop ps.length)
    else countSubstrF pat fuel cs

def countSubstr (pat s : Str) : Nat := countSubstrF pat s.length s

/-- Python `"_"`-to-`" "` replacement, as in `risk_type.replace`. -/
def underscoresToSpaces (s : Str) : Str :=
  s.map (fun c => if c = '_' then ' ' else c)

/-- Helper for `pyTitle`: the Bool records whether the previous character
was alphabetic. -/
def pyTitleAux : Bool → Str → Str
  | _, [] => []
  | prevAlpha, c :: t =>
    (if c.isAlpha then (if prevAlpha then asciiLowerC c else asciiUpperC c) else c)
      :: pyTitleAux c.isAlpha t

/-- Python `str.title()` on ASCII text: the first letter of every word is
upper-cased, the following letters lower-cased. -/
def pyTitle (s : Str) : Str := pyTitleAux false s

/-- Python `str(n)` for a natural number. -/
def natToStr (n : Nat) : Str := Nat.toDigits 10 n

/-- Round-half-to-even of a rational to an integer, the rounding mode of
Python's builtin `round`. -/
def ratFloor (x : ℚ) : ℤ := Int.fdiv x.num (x.den : ℤ)

def rhe (x : ℚ) : ℤ :=
  let f := ratFloor x
  let r := x - (f : ℚ)
  if r < 1/2 then f else if 1/2 < r then f + 1 else if f % 2 = 0 then f else f + 1

/-- Python `round(x, d)` modelled exactly on rationals (decimal
round-half-to-even; binary-float ties differ only on exact decimal
halves, which the values reached in this development avoid). -/
def pyRound (d : Nat) (x : ℚ) : ℚ := (rhe (x * (10 : ℚ) ^ d) : ℚ) / (10 : ℚ) ^ d

/-- Python's `list(set(xs))` for strings. CPython iterates a set in a
hash-determined but per-process fixed order; no claim below depends on
the particular order, and the concrete inputs evaluated below never
reach a list with duplicates, so first-occurrence de-duplication is
used. -/
def pySetListF : Nat → List Str → List Str
  | _, [] => []
  | 0, l => l
  | Nat.succ fuel, x :: t => x :: pySetListF fuel (t.filter (fun y => ¬ (y = x)))

def pySetList (l : List Str) : List Str := pySetListF l.length l

/-- Association-list lookup by string key (Python `dict.get`). -/
def lookupStr {α : Type} (table : List (Str × α)) (key : Str) : Option α :=
  match table with
  | [] => none
  | (k, v) :: t => if k = key then some v else lookupStr t key

/-! ## A small regular-expression engine with Python `re` semantics

Patterns from the source are compiled by hand into the syntax tree `RE`
below (the original pattern text is quoted in a comment at each use).
The matcher is a fuel-indexed CPS backtracking matcher implementing
Python's leftmost match with ordered alternation, greedy and lazy
quantifiers, IGNORECASE / MULTILINE / DOTALL, word boundaries,
anchors and positive lookahead. -/

/-- Character classes. -/
inductive CC where
  | one : Char → CC
  | range : Char → Char → CC
  | digit : CC
  | space : CC
  | any : CC
  | union : CC → CC → CC
  | neg : CC → CC
deriving Repr, DecidableEq

/-- Does character `c` match class `cc`? (`ci` = IGNORECASE,
`dotall` = DOTALL). -/
def ccm (ci dotall : Bool) (c : Char) : CC → Bool
  | .one d => c == d || (ci && swapCaseC c == d)
  | .range a b => decide (a ≤ c ∧ c ≤ b) || (ci && decide (a ≤ swapCaseC c ∧ swapCaseC c ≤ b))
  | .digit => decide ('0' ≤ c ∧ c ≤ '9')
  | .space => isPySpace c
  | .any => dotall || !(c == '\n')
  | .union c1 c2 => ccm ci dotall c c1 || ccm ci dotall c c2
  | .neg c1 => !(ccm ci dotall c c1)

/-- Regular-expression syntax. `rep lo hi greedy r` is the quantifier
with `lo` to `hi` repetitions (`hi = none` means unbounded); `grp n r`
is capturing group number `n`; `look r` is positive lookahead `(?=r)`;
`bol`/`eol`/`eos`/`wordB` are `^`, `$`, `\Z`, `\b`. -/
inductive RE where
  | eps : RE
  | cls : CC → RE
  | cat : RE → RE → RE
  | alt : RE → RE → RE
  | rep : Nat → Option Nat → Bool → RE → RE
  | grp : Nat → RE → RE
  | look : RE → RE
  | bol : RE
  | eol : RE
  | eos : RE
  | wordB : RE
deriving Repr, DecidableEq

/-- Flag set of a compiled pattern. -/
structure ReCfg where
  ci : Bool
  ml : Bool
  dotall : Bool
deriving Repr

def cfgCI : ReCfg := ⟨true, false, false⟩
def cfgCIML : ReCfg := ⟨true, true, false⟩
def cfgCS : ReCfg := ⟨false, false, false⟩
def cfgCIDotall : ReCfg := ⟨true, false, true⟩
def cfgCIMLDotall : ReCfg := ⟨true, true, true⟩

/-- Captured group spans: (group number, start index, end index);
the most recent capture is listed first. -/
abbrev Groups := List (Nat × Nat × Nat)

/-- The CPS backtracking matcher.  `rem` is the unread input, `idx` its
absolute position, `prev` the character before `idx` (for `^` and `\b`),
`g` the groups captured so far and `k` the continuation.  The fuel
bounds the depth of the search; it is chosen large enough in
`reMatchHere` that it is never exhausted on the inputs evaluated in
this development. -/
def reM (cfg : ReCfg) : Nat → RE → Str → Nat → Option Char → Groups →
    (Str → Nat → Option Char → Groups → Option (Nat × Groups)) → Option (Nat × Groups)
  | 0, _, _, _, _, _, _ => none
  | Nat.succ fuel, r, rem, idx, prev, g, k =>
    match r with
    | .eps => k rem idx prev g
    | .cls cc =>
      match rem with
      | [] => none
      | c :: t => if ccm cfg.ci cfg.dotall c cc then k t (idx + 1) (some c) g else none
    | .cat r1 r2 =>
      reM cfg fuel r1 rem idx prev g (fun rem2 idx2 prev2 g2 =>
        reM cfg fuel r2 rem2 idx2 prev2 g2 k)
    | .alt r1 r2 =>
      match reM cfg fuel r1 rem idx prev g k with
      | some res => some res
      | none => reM cfg fuel r2 rem idx prev g k
    | .rep lo hi greedy r1 =>
      match lo with
      | Nat.succ lo2 =>
        reM cfg fuel r1 rem idx prev g (fun rem2 idx2 prev2 g2 =>
          reM cfg fuel (.rep lo2 (hi.map (fun h => h - 1)) greedy r1) rem2 idx2 prev2 g2 k)
      | 0 =>
        if match hi with | none => true | some h => 0 < h then
          if greedy then
            match reM cfg fuel r1 rem idx prev g (fun rem2 idx2 prev2 g2 =>
                if idx2 = idx then k rem2 idx2 prev2 g2
                else reM cfg fuel (.rep 0 (hi.map (fun h => h - 1)) greedy r1) rem2 idx2 prev2 g2 k) with
            | some res => some res
            | none => k rem idx prev g
          else
            match k rem idx prev g with
            | some res => some res
            | none =>
              reM cfg fuel r1 rem idx prev g (fun rem2 idx2 prev2 g2 =>
                if idx2 = idx then k rem2 idx2 prev2 g2
                else reM cfg fuel (.rep 0 (hi.map (fun h => h - 1)) greedy r1) rem2 idx2 prev2 g2 k)
        else k rem idx prev g
    | .grp n r1 =>
      reM cfg fuel r1 rem idx prev g (fun rem2 idx2 prev2 g2 =>
        k rem2 idx2 prev2 ((n, idx, idx2) :: g2))
    | .look r1 =>
      match reM cfg fuel r1 rem idx prev g (fun _ idx2 _ g2 => some (idx2, g2)) with
      | some _ => k rem idx prev g
      | none => none
    | .bol =>
      if idx = 0 ∨ (cfg.ml ∧ prev = some '\n') then k rem idx prev g else none
    | .eol =>
      if (match rem with
          | [] => true
          | c :: t => c = '\n' ∧ (cfg.ml ∨ t = [])) then k rem idx prev g else none
    | .eos => if rem = [] then k rem idx prev g else none
    | .wordB =>
      let pw : Bool := match prev with | none => false | some c => isWordC c
      let nw : Bool := match rem with | [] => false | c :: _ => isWordC c
      if pw ≠ nw then k rem idx prev g else none

/-- Fuel bound for one match attempt over a suffix of length `n`. -/
def reFuel (n : Nat) : Nat := (n + 64) * 64

/-- Try to match `r` at exactly the current position; returns the end
index and the captured groups.  The fuel is supplied by the caller
(computed once per scan from the text length). -/
def reMatchHere (cfg : ReCfg) (fuel : Nat) (r : RE) (rem : Str) (idx : Nat)
    (prev : Option Char) : Option (Nat × Groups) :=
  reM cfg fuel r rem idx prev [] (fun _ idx2 _ g => some (idx2, g))

/-- Scan left to right for the first position where `r` matches
(Python `re.search`); returns (start, end, groups).  The end index is
clamped to be at least the start index (a no-op, since a match never
ends before it starts). -/
def reSearchAux (cfg : ReCfg) (fuel : Nat) (r : RE) :
    Str → Nat → Option Char → Option (Nat × Nat × Groups)
  | [], idx, prev =>
    (reMatchHere cfg fuel r [] idx prev).map (fun p => (idx, Nat.max idx p.1, p.2))
  | c :: t, idx, prev =>
    match reMatchHere cfg fuel r (c :: t) idx prev with
    | some (e, g) => some (idx, Nat.max idx e, g)
    | none => reSearchAux cfg fuel r t (idx + 1) (some c)

def reSearch (cfg : ReCfg) (r : RE) (s : Str) : Option (Nat × Nat × Groups) :=
  reSearchAux cfg (reFuel (lenK s)) r s 0 none

/-- Python `re.search(...) is not None`. -/
def reTest (cfg : ReCfg) (r : RE) (s : Str) : Bool := (reSearch cfg r s).isSome

/-- The character just before absolute position `i` of `s`. -/
def prevAt (s : Str) (i : Nat) : Option Char :=
  if i = 0 then none else (s.drop (i - 1)).head?

/-- Python `re.finditer`: non-overlapping matches scanning left to
right, resuming after each match (one past it when the match is
empty). -/
def reFindIterAux (cfg : ReCfg) (mfuel : Nat) (r : RE) (s : Str) :
    Nat → Str → Nat → Option Char → List (Nat × Nat × Groups)
  | 0, _, _, _ => []
  | Nat.succ fuel, rem, idx, prev =>
    match reSearchAux cfg mfuel r rem idx prev with
    | none => []
    | some (st, en, g) =>
      let nxt := if st < en then en else st + 1
      (st, en, g) :: reFindIterAux cfg mfuel r s fuel (s.drop nxt) nxt (prevAt s nxt)

def reFindIter (cfg : ReCfg) (r : RE) (s : Str) : List (Nat × Nat × Groups) :=
  reFindIterAux cfg (reFuel (lenK s)) r s (lenK s + 2) s 0 none

/-- Span of capturing group `n` in a group list. -/
def grpSpan (g : Groups) (n : Nat) : Option (Nat × Nat) :=
  match g with
  | [] => none
  | (m, a, b) :: t => if m = n then some (a, b) else grpSpan t n

/-- Text of capturing group `n` (empty when the group did not
participate). -/
def grpStr (s : Str) (g : Groups) (n : Nat) : Str :=
  match grpSpan g n with
  | none => []
  | some (a, b) => sliceL s a b

/-! ### Smart constructors mirroring common pattern pieces -/

def rChar (c : Char) : RE := .cls (.one c)
def rStr (s : String) : RE := (s.data.map (fun c => RE.cls (.one c))).foldr RE.cat .eps
def rCat (l : List RE) : RE := l.foldr RE.cat .eps
def rAlt : List RE → RE
  | [] => .eps
  | [r] => r
  | r :: t => .alt r (rAlt t)
def rOpt (r : RE) : RE := .rep 0 (some 1) true r
def rStar (r : RE) : RE := .rep 0 none true r
def rPlus (r : RE) : RE := .rep 1 none true r
/-- the pattern piece backslash-s-plus -/
def rWs : RE := rPlus (.cls .space)
def rWsStar : RE := rStar (.cls .space)
def rDigit : RE := .cls .digit
/-- the pattern piece backslash-d-plus -/
def rDigits1 : RE := rPlus rDigit
def rDot : RE := .cls .any
def rDotStar : RE := rStar rDot
def rNotNl : RE := .cls (.neg (.one '\n'))
/-- a list of words joined by mandatory whitespace -/
def rPhrase (ws : List String) : RE := rCat ((ws.map rStr).intersperse rWs)

/-! ## Clause extractor (core/clause_extractor.py) -/

/-- An extracted contract clause with analysis (dataclass
`ExtractedClause`). -/
structure ExtractedClause where
  clause_id : Str
  title : Str
  content : Str
  category : Str
  risk_indicators : List Str
  key_terms : List Str
  amounts : List Str
  dates : List Str
deriving DecidableEq, Repr, Inhabited

/-- `ClauseExtractor.CLAUSE_CATEGORIES`: category name to keyword list,
in source order. -/
def CLAUSE_CATEGORIES : List (String × List String) := [
  ("payment", ["payment", "compensation", "salary", "fee", "price", "cost",
    "invoice", "billing", "remuneration"]),
  ("termination", ["termination", "terminate", "cancel", "cancellation", "exit",
    "end of agreement", "expiry", "expire"]),
  ("confidentiality", ["confidential", "confidentiality", "non-disclosure", "nda",
    "proprietary", "trade secret", "sensitive information"]),
  ("liability", ["liability", "liable", "indemnify", "indemnification", "indemnity",
    "hold harmless", "defend", "damages"]),
  ("intellectual_property", ["intellectual property", "ip", "patent", "copyright", "trademark",
    "invention", "work product", "proprietary rights"]),
  ("non_compete", ["non-compete", "non compete", "compete", "competition",
    "competitive activity", "restraint of trade"]),
  ("arbitration", ["arbitration", "dispute", "resolution", "mediation", "arbitrator"]),
  ("jurisdiction", ["jurisdiction", "governing law", "venue", "court", "applicable law"]),
  ("warranty", ["warranty", "warranties", "represent", "representation",
    "guarantee", "assurance"]),
  ("force_majeure", ["force majeure", "act of god", "unforeseen", "beyond control",
    "natural disaster", "pandemic"]),
  ("renewal", ["renewal", "renew", "auto-renew", "automatic renewal", "extension",
    "extend", "evergreen"]),
  ("notice", ["notice", "notification", "notify", "inform", "written notice"]),
  ("assignment", ["assignment", "assign", "transfer", "delegate", "succession"]),
  ("amendment", ["amendment", "amend", "modify", "modification", "change"]),
  ("definitions", ["definition", "defined", "means", "shall mean", "interpretation"]),
  ("scope", ["scope", "services", "deliverables", "obligations", "responsibilities",
    "work", "duties"])]

/-- the character class [\d,] -/
def rDigitComma : RE := rPlus (.cls (.union .digit (.one ',')))

/-- the pattern piece (?:rs\.?|inr|rupee-sign) in lower case -/
def rRsLower : RE := rAlt [rCat [rStr "rs", rOpt (rChar '.')], rStr "inr", rChar '₹']

/-- `ClauseExtractor.HIGH_RISK_PATTERNS`, each Python pattern compiled;
the original pattern text is given in the comments. -/
def HIGH_RISK_PATTERNS : List (String × List RE) := [
  ("unlimited_liability", [
    -- unlimited\s+liability
    rPhrase ["unlimited", "liability"],
    -- full\s+liability
    rPhrase ["full", "liability"],
    -- liable\s+for\s+all\s+damages
    rPhrase ["liable", "for", "all", "damages"]]),
  ("unilateral_termination", [
    -- (?:party\s+[ab12]|employer|company)\s+may\s+terminate\s+(?:at\s+any\s+time|without\s+cause|immediately)
    rCat [rAlt [rCat [rStr "party", rWs,
            .cls (.union (.one 'a') (.union (.one 'b') (.union (.one '1') (.one '2'))))],
          rStr "employer", rStr "company"],
      rWs, rStr "may", rWs, rStr "terminate", rWs,
      rAlt [rPhrase ["at", "any", "time"], rPhrase ["without", "cause"], rStr "immediately"]],
    -- sole\s+discretion.*terminat
    rCat [rPhrase ["sole", "discretion"], rDotStar, rStr "terminat"]]),
  ("excessive_penalty", [
    -- penalty\s+of\s+(?:rs\.?|inr|rupee-sign)\s*[\d,]+
    rCat [rStr "penalty", rWs, rStr "of", rWs, rRsLower, rWsStar, rDigitComma],
    -- liquidated\s+damages.*(?:rs\.?|inr|rupee-sign)\s*[\d,]+
    rCat [rPhrase ["liquidated", "damages"], rDotStar, rRsLower, rWsStar, rDigitComma]]),
  ("broad_non_compete", [
    -- (?:worldwide|global|unlimited)\s+(?:non-compete|restriction)
    rCat [rAlt [rStr "worldwide", rStr "global", rStr "unlimited"], rWs,
      rAlt [rStr "non-compete", rStr "restriction"]],
    -- non-compete.*(?:\d+\s+years|\d+\s+year\s+period)
    rCat [rStr "non-compete", rDotStar,
      rAlt [rCat [rDigits1, rWs, rStr "years"],
        rCat [rDigits1, rWs, rStr "year", rWs, rStr "period"]]]]),
  ("ip_assignment", [
    -- assign.*all.*(?:intellectual\s+property|ip|rights)
    rCat [rStr "assign", rDotStar, rStr "all", rDotStar,
      rAlt [rPhrase ["intellectual", "property"], rStr "ip", rStr "rights"]],
    -- work.*for.*hire
    rCat [rStr "work", rDotStar, rStr "for", rDotStar, rStr "hire"],
    -- transfer.*ownership.*(?:ip|intellectual)
    rCat [rStr "transfer", rDotStar, rStr "ownership", rDotStar,
      rAlt [rStr "ip", rStr "intellectual"]]]),
  ("auto_renewal", [
    -- auto(?:matic)?(?:ally)?\s+renew
    rCat [rStr "auto", rOpt (rStr "matic"), rOpt (rStr "ally"), rWs, rStr "renew"],
    -- evergreen.*clause
    rCat [rStr "evergreen", rDotStar, rStr "clause"]]),
  ("one_sided_indemnity", [
    -- (?:employee|contractor|vendor)\s+shall\s+indemnify
    rCat [rAlt [rStr "employee", rStr "contractor", rStr "vendor"], rWs,
      rStr "shall", rWs, rStr "indemnify"],
    -- indemnify.*(?:company|employer).*all.*claims
    rCat [rStr "indemnify", rDotStar, rAlt [rStr "company", rStr "employer"],
      rDotStar, rStr "all", rDotStar, rStr "claims"]])]

/-- The four clause-heading conventions of
`ClauseExtractor.extract_clauses`, searched with MULTILINE and
IGNORECASE. -/
-- (?:^|\n)\s*(\d+(?:\.\d+)*)\s*[\.:\)]\s*([A-Z][^\n]x0-100)
def reNumberedHeading : RE := rCat [
  rAlt [RE.bol, rChar '\n'], rWsStar,
  RE.grp 1 (rCat [rDigits1, rStar (rCat [rChar '.', rDigits1])]),
  rWsStar, .cls (.union (.one '.') (.union (.one ':') (.one ')'))), rWsStar,
  RE.grp 2 (rCat [.cls (.range 'A' 'Z'), .rep 0 (some 100) true rNotNl])]

-- (?:^|\n)\s*(?:ARTICLE|Article|SECTION|Section|CLAUSE|Clause)\s*(\d+(?:\.\d+)?)[\.:\s]+([^\n]+)
def reArticleHeading : RE := rCat [
  rAlt [RE.bol, rChar '\n'], rWsStar,
  rAlt [rStr "ARTICLE", rStr "Article", rStr "SECTION", rStr "Section",
    rStr "CLAUSE", rStr "Clause"],
  rWsStar,
  RE.grp 1 (rCat [rDigits1, rOpt (rCat [rChar '.', rDigits1])]),
  rPlus (.cls (.union (.one '.') (.union (.one ':') .space))),
  RE.grp 2 (rPlus rNotNl)]

-- (?:^|\n)\s*([IVXLC]+)\s*[\.:\)]\s*([^\n]+)
def ccRoman : CC :=
  .union (.one 'I') (.union (.one 'V') (.union (.one 'X') (.union (.one 'L') (.one 'C'))))
def reRomanHeading : RE := rCat [
  rAlt [RE.bol, rChar '\n'], rWsStar,
  RE.grp 1 (rPlus (.cls ccRoman)),
  rWsStar, .cls (.union (.one '.') (.union (.one ':') (.one ')'))), rWsStar,
  RE.grp 2 (rPlus rNotNl)]

-- (?:^|\n)\s*\(([a-z])\)\s*([^\n]+)
def reLetteredHeading : RE := rCat [
  rAlt [RE.bol, rChar '\n'], rWsStar, rChar '(',
  RE.grp 1 (.cls (.range 'a' 'z')), rChar ')', rWsStar,
  RE.grp 2 (rPlus rNotNl)]

def clause_heading_res : List RE :=
  [reNumberedHeading, reArticleHeading, reRomanHeading, reLetteredHeading]

/-- One raw heading match of `extract_clauses` (`all_matches` entries). -/
structure ClauseMatch where
  cid : Str
  ctitle : Str
  mstart : Nat
  mend : Nat
deriving DecidableEq, Repr

/-- The `all_matches` list before sorting: all matches of all four
conventions, convention-major. -/
def collectClauseMatches (text : Str) : List ClauseMatch :=
  (clause_heading_res.map (fun p =>
    (reFindIter cfgCIML p text).map (fun m =>
      { cid := grpStr text m.2.2 1
        ctitle := pyStrip (grpStr text m.2.2 2)
        mstart := m.1
        mend := m.2.1 }))).flatten

/-- Stable insertion by start offset (Python's stable
`all_matches.sort(key=lambda x: x["start"])`). -/
def insByStart (m : ClauseMatch) : List ClauseMatch → List ClauseMatch
  | [] => [m]
  | g :: t => if g.mstart < m.mstart then g :: insByStart m t else m :: g :: t

def sortByStart (l : List ClauseMatch) : List ClauseMatch := l.foldr insByStart []

/-- `ClauseExtractor._categorize_clause`. -/
def maxByFirst {α : Type} (val : α → Nat) (x : α) : List α → α
  | [] => x
  | y :: t => if val x < val y then maxByFirst val y t else maxByFirst val x t

def categorize_clause (title content : Str) : Str :=
  let combined := asciiLower (title ++ (' ' :: content))
  let category_scores := CLAUSE_CATEGORIES.filterMap (fun ct =>
    let score := (ct.2.filter (fun kw => isSubstr kw.data combined)).length
    if 0 < score then some (ct.1.data, score) else none)
  match category_scores with
  | [] => ("general").data
  | c :: t => (maxByFirst (fun p => p.2) c t).1

/-- `ClauseExtractor._find_risk_indicators`. -/
def find_risk_indicators (content : Str) : List Str :=
  let content_lower := asciiLower content
  pySetList (HIGH_RISK_PATTERNS.foldl (fun acc rp =>
    if rp.2.any (fun p => reTest cfgCI p content_lower) then acc ++ [rp.1.data] else acc) [])

/-- `ClauseExtractor._extract_key_terms`: the fixed legal vocabulary. -/
def legal_terms : List String :=
  ["shall", "must", "may", "will", "agrees", "warrants", "represents",
   "indemnify", "terminate", "liable", "confidential", "proprietary",
   "exclusive", "non-exclusive", "irrevocable", "perpetual"]

def extract_key_terms (content : Str) : List Str :=
  let content_lower := asciiLower content
  ((legal_terms.filter (fun t => isSubstr t.data content_lower)).map (fun t => t.data)).take 10

/-- `ClauseExtractor._extract_amounts` patterns (IGNORECASE; no capture
groups, so `findall` yields the full matches). -/
-- (?:Rs\.?|INR|rupee-sign)\s*[\d,]+(?:\.\d\d)?
def reAmountRs : RE := rCat [
  rAlt [rCat [rStr "Rs", rOpt (rChar '.')], rStr "INR", rChar '₹'],
  rWsStar, rDigitComma, rOpt (rCat [rChar '.', .rep 2 (some 2) true rDigit])]
-- \$\s*[\d,]+(?:\.\d\d)?
def reAmountDollar : RE := rCat [
  rChar '$', rWsStar, rDigitComma, rOpt (rCat [rChar '.', .rep 2 (some 2) true rDigit])]
-- [\d,]+\s*(?:rupees|dollars|lakhs?|crores?)
def reAmountWord : RE := rCat [
  rDigitComma, rWsStar,
  rAlt [rStr "rupees", rStr "dollars",
    rCat [rStr "lakh", rOpt (rChar 's')], rCat [rStr "crore", rOpt (rChar 's')]]]

def extract_amounts (content : Str) : List Str :=
  (([reAmountRs, reAmountDollar, reAmountWord].map (fun p =>
    (reFindIter cfgCI p content).map (fun m => sliceL content m.1 m.2.1))).flatten).take 5

/-- `ClauseExtractor._extract_dates` patterns (IGNORECASE; no capture
groups). -/
-- \b\d x1-2 [\/\-]\d x1-2 [\/\-]\d x2-4 \b
def reDateNumeric : RE := rCat [
  RE.wordB, .rep 1 (some 2) true rDigit, .cls (.union (.one '/') (.one '-')),
  .rep 1 (some 2) true rDigit, .cls (.union (.one '/') (.one '-')),
  .rep 2 (some 4) true rDigit, RE.wordB]
-- \b\d x1-2 (?:st|nd|rd|th)?\s+(?:Jan|Feb|...|Dec)[a-z]*\s*,?\s*\d x4 \b
def reDateShortMonth : RE := rCat [
  RE.wordB, .rep 1 (some 2) true rDigit,
  rOpt (rAlt [rStr "st", rStr "nd", rStr "rd", rStr "th"]), rWs,
  rAlt [rStr "Jan", rStr "Feb", rStr "Mar", rStr "Apr", rStr "May", rStr "Jun",
    rStr "Jul", rStr "Aug", rStr "Sep", rStr "Oct", rStr "Nov", rStr "Dec"],
  rStar (.cls (.range 'a' 'z')), rWsStar, rOpt (rChar ','), rWsStar,
  .rep 4 (some 4) true rDigit, RE.wordB]
-- \b(?:January|...|December)\s+\d x1-2 ,?\s+\d x4 \b
def reDateFullMonth : RE := rCat [
  RE.wordB,
  rAlt [rStr "January", rStr "February", rStr "March", rStr "April", rStr "May",
    rStr "June", rStr "July", rStr "August", rStr "September", rStr "October",
    rStr "November", rStr "December"],
  rWs, .rep 1 (some 2) true rDigit, rOpt (rChar ','), rWs,
  .rep 4 (some 4) true rDigit, RE.wordB]

def extract_dates (content : Str) : List Str :=
  (([reDateNumeric, reDateShortMonth, reDateFullMonth].map (fun p =>
    (reFindIter cfgCI p content).map (fun m => sliceL content m.1 m.2.1))).flatten).take 5

/-- Build one `ExtractedClause` from a heading match and its stripped
(untruncated) body, exactly as the loop body of `extract_clauses`. -/
def mkClause (m : ClauseMatch) (raw : Str) : ExtractedClause :=
  { clause_id := m.cid
    title := m.ctitle.take 200
    content := raw.take 2000
    category := categorize_clause m.ctitle raw
    risk_indicators := find_risk_indicators raw
    key_terms := extract_key_terms raw
    amounts := extract_amounts raw
    dates := extract_dates raw }

/-- The content-carving loop of `extract_clauses`, with the clause span
(heading start, body end) kept as ghost data for the segmentation
claims. -/
def buildClauses (text : Str) : List ClauseMatch → List ((Nat × Nat) × ExtractedClause)
  | [] => []
  | m :: rest =>
    let cend := match rest with | [] => lenK text | n :: _ => n.mstart
    let raw := pyStrip (sliceL text m.mend cend)
    if lenK raw < 20 then buildClauses text rest
    else ((m.mstart, cend), mkClause m raw) :: buildClauses text rest

def extractClausesSpans (text : Str) : List ((Nat × Nat) × ExtractedClause) :=
  buildClauses text (sortByStart (collectClauseMatches text))

/-- `ClauseExtractor.extract_clauses`. -/
def extract_clauses (text : Str) : List ExtractedClause :=
  (extractClausesSpans text).map (fun x => x.2)

/-- `extract_clauses` with the instance state `self.clauses` threaded
explicitly: the method overwrites the state with the fresh result. -/
def extract_clauses_S (st : List ExtractedClause) (text : Str) :
    List ExtractedClause × List ExtractedClause :=
  let _ := st
  let cs := extract_clauses text
  (cs, cs)

/-! ## Contract classifier (core/contract_classifier.py) -/

/-- Result of contract classification (dataclass
`ClassificationResult`). -/
structure ClassificationResult where
  contract_type : Str
  confidence : ℚ
  sub_type : Str
  key_indicators : List Str
deriving DecidableEq, Repr

/-- One entry of `ContractClassifier.CONTRACT_PATTERNS`; each compiled
pattern is paired with its original Python pattern text, which
`classify` slices into the `[pattern: ...]` indicator labels. -/
structure ContractProfile where
  pname : String
  keywords : List String
  patterns : List (RE × String)
  sub_types : List String
deriving DecidableEq

def CONTRACT_PATTERNS : List ContractProfile := [
  { pname := "Employment Agreement"
    keywords := ["employment", "employee", "employer", "salary", "compensation",
      "working hours", "leave", "provident fund", "gratuity", "probation",
      "termination of employment", "notice period", "designation", "job duties",
      "reporting", "workplace", "office hours"]
    patterns := [
      (rPhrase ["employment", "agreement"], "employment\\s+agreement"),
      (rPhrase ["contract", "of", "employment"], "contract\\s+of\\s+employment"),
      (rPhrase ["letter", "of", "appointment"], "letter\\s+of\\s+appointment"),
      (rPhrase ["offer", "letter"], "offer\\s+letter"),
      (rCat [rPhrase ["service", "agreement"], rDotStar, rStr "employee"],
        "service\\s+agreement.*employee")]
    sub_types := ["Full-time", "Part-time", "Fixed-term", "Probationary", "Executive"] },
  { pname := "Vendor Contract"
    keywords := ["vendor", "supplier", "purchase", "supply", "goods", "materials",
      "delivery", "invoice", "procurement", "quality", "specifications",
      "order", "consignment", "warranty on goods"]
    patterns := [
      (rPhrase ["vendor", "agreement"], "vendor\\s+agreement"),
      (rPhrase ["supply", "agreement"], "supply\\s+agreement"),
      (rPhrase ["purchase", "agreement"], "purchase\\s+agreement"),
      (rPhrase ["procurement", "contract"], "procurement\\s+contract"),
      (rPhrase ["supplier", "contract"], "supplier\\s+contract")]
    sub_types := ["Supply Agreement", "Purchase Order", "Framework Agreement"] },
  { pname := "Lease Agreement"
    keywords := ["lease", "lessor", "lessee", "rent", "rental", "premises", "property",
      "tenant", "landlord", "security deposit", "maintenance", "occupancy",
      "possession", "eviction", "sub-lease", "monthly rent"]
    patterns := [
      (rCat [rStr "lease", rWs, rAlt [rStr "agreement", rStr "deed"]],
        "lease\\s+(?:agreement|deed)"),
      (rPhrase ["rental", "agreement"], "rental\\s+agreement"),
      (rPhrase ["tenancy", "agreement"], "tenancy\\s+agreement"),
      (rPhrase ["leave", "and", "license"], "leave\\s+and\\s+license"),
      (rPhrase ["property", "lease"], "property\\s+lease")]
    sub_types := ["Residential", "Commercial", "Industrial", "Leave and License"] },
  { pname := "Partnership Deed"
    keywords := ["partnership", "partner", "partners", "profit sharing", "capital contribution",
      "partnership firm", "mutual consent", "dissolution", "goodwill",
      "partner's share", "draw", "partnership act"]
    patterns := [
      (rPhrase ["partnership", "deed"], "partnership\\s+deed"),
      (rPhrase ["partnership", "agreement"], "partnership\\s+agreement"),
      (rPhrase ["articles", "of", "partnership"], "articles\\s+of\\s+partnership"),
      (rCat [rAlt [rStr "general", rStr "limited"], rWs, rStr "partnership"],
        "(?:general|limited)\\s+partnership")]
    sub_types := ["General Partnership", "Limited Partnership", "LLP"] },
  { pname := "Service Contract"
    keywords := ["services", "service provider", "client", "deliverables", "scope of work",
      "milestones", "project", "consultancy", "professional services",
      "statement of work", "sow", "service level", "sla"]
    patterns := [
      (rPhrase ["service", "agreement"], "service\\s+agreement"),
      (rPhrase ["consulting", "agreement"], "consulting\\s+agreement"),
      (rPhrase ["professional", "services", "agreement"], "professional\\s+services\\s+agreement"),
      (rPhrase ["master", "service", "agreement"], "master\\s+service\\s+agreement"),
      (rPhrase ["statement", "of", "work"], "statement\\s+of\\s+work")]
    sub_types := ["Consulting", "IT Services", "Professional Services", "Maintenance"] },
  { pname := "Non-Disclosure Agreement"
    keywords := ["confidential", "non-disclosure", "nda", "proprietary", "trade secret",
      "confidential information", "receiving party", "disclosing party",
      "sensitive information", "protect"]
    patterns := [
      (rPhrase ["non-disclosure", "agreement"], "non-disclosure\\s+agreement"),
      (rPhrase ["confidentiality", "agreement"], "confidentiality\\s+agreement"),
      (rCat [RE.wordB, rStr "nda", RE.wordB], "\\bnda\\b"),
      (rCat [rStr "mutual", rWs, rAlt [rStr "non-disclosure", rStr "confidentiality"]],
        "mutual\\s+(?:non-disclosure|confidentiality)")]
    sub_types := ["Mutual NDA", "One-way NDA", "Employee NDA"] },
  { pname := "Licensing Agreement"
    keywords := ["license", "licensor", "licensee", "royalty", "intellectual property",
      "trademark", "patent", "copyright", "sublicense", "territory",
      "exclusive", "non-exclusive", "usage rights"]
    patterns := [
      (rCat [rStr "licens", rAlt [rStr "e", rStr "ing"], rWs, rStr "agreement"],
        "licens(?:e|ing)\\s+agreement"),
      (rPhrase ["software", "license"], "software\\s+license"),
      (rPhrase ["trademark", "license"], "trademark\\s+license"),
      (rPhrase ["patent", "license"], "patent\\s+license"),
      (rPhrase ["end", "user", "license"], "end\\s+user\\s+license")]
    sub_types := ["Software License", "IP License", "Franchise", "Technology License"] },
  { pname := "Sales Agreement"
    keywords := ["sale", "seller", "buyer", "purchaser", "purchase price", "goods",
      "transfer of ownership", "title", "delivery", "payment terms",
      "bill of sale", "consideration"]
    patterns := [
      (rPhrase ["sale", "agreement"], "sale\\s+agreement"),
      (rPhrase ["sale", "deed"], "sale\\s+deed"),
      (rCat [rStr "agreement", rWs, rAlt [rStr "for", rStr "of"], rWs, rStr "sale"],
        "agreement\\s+(?:for|of)\\s+sale"),
      (rPhrase ["purchase", "and", "sale"], "purchase\\s+and\\s+sale")]
    sub_types := ["Asset Sale", "Share Sale", "Real Estate Sale", "Business Sale"] },
  { pname := "Loan Agreement"
    keywords := ["loan", "lender", "borrower", "principal", "interest", "repayment",
      "emi", "collateral", "security", "default", "disbursement",
      "promissory note", "mortgage"]
    patterns := [
      (rPhrase ["loan", "agreement"], "loan\\s+agreement"),
      (rPhrase ["credit", "agreement"], "credit\\s+agreement"),
      (rPhrase ["facility", "agreement"], "facility\\s+agreement"),
      (rPhrase ["promissory", "note"], "promissory\\s+note")]
    sub_types := ["Personal Loan", "Business Loan", "Mortgage", "Line of Credit"] },
  { pname := "Franchise Agreement"
    keywords := ["franchise", "franchisee", "franchisor", "brand", "trademark usage",
      "franchise fee", "royalty", "territory", "operational standards",
      "training", "marketing fund"]
    patterns := [
      (rPhrase ["franchise", "agreement"], "franchise\\s+agreement"),
      (rPhrase ["franchising", "agreement"], "franchising\\s+agreement"),
      (rPhrase ["master", "franchise"], "master\\s+franchise")]
    sub_types := ["Unit Franchise", "Master Franchise", "Area Development"] }]

/-- Keyword and pattern scoring of one contract type against the
lower-cased document (`classify`'s scoring loop): each present keyword
adds `min(count, 5)`, each matching strong-signal pattern adds 10;
matched keywords and `[pattern: ...]` labels are recorded. -/
def typeScore (text_lower : Str) (p : ContractProfile) : Nat × List Str :=
  let kwres := p.keywords.foldl (fun acc kw =>
    let count := countSubstr (asciiLower kw.data) text_lower
    if 0 < count then (acc.1 + Nat.min count 5, acc.2 ++ [kw.data]) else acc) (0, [])
  p.patterns.foldl (fun acc pp =>
    if reTest cfgCI pp.1 text_lower then
      (acc.1 + 10, acc.2 ++ [("[pattern: ").data ++ pp.2.data.take 30 ++ ("...]").data])
    else acc) kwres

/-- The `scores` dictionary of `classify`: profiles with nonzero score,
in catalog order, each with its (capped) matched-indicator list. -/
def classifyScores (text : Str) : List (ContractProfile × Nat × List Str) :=
  CONTRACT_PATTERNS.filterMap (fun p =>
    let sk := typeScore (asciiLower text) p
    if 0 < sk.1 then some (p, sk.1, sk.2.take 10) else none)

/-- `max_possible = len(keywords) * 5 + len(patterns) * 10` for the
winning type. -/
def max_possible (p : ContractProfile) : Nat :=
  p.keywords.length * 5 + p.patterns.length * 10

/-- `ContractClassifier._determine_sub_type`. -/
def determine_sub_type (text_lower : Str) (p : ContractProfile) : Str :=
  match p.sub_types.find? (fun st => isSubstr (asciiLower st.data) text_lower) with
  | some st => st.data
  | none =>
    if p.pname = "Employment Agreement" then
      if isSubstr ("probation").data text_lower then ("Probationary").data
      else if isSubstr ("fixed term").data text_lower || isSubstr ("fixed-term").data text_lower then
        ("Fixed-term").data
      else if isSubstr ("executive").data text_lower || isSubstr ("managing director").data text_lower then
        ("Executive").data
      else ("Full-time").data
    else if p.pname = "Lease Agreement" then
      if isSubstr ("residential").data text_lower || isSubstr ("house").data text_lower
          || isSubstr ("apartment").data text_lower then ("Residential").data
      else if isSubstr ("commercial").data text_lower || isSubstr ("office").data text_lower
          || isSubstr ("shop").data text_lower then ("Commercial").data
      else if isSubstr ("leave and license").data text_lower then ("Leave and License").data
      else ("Commercial").data
    else if p.pname = "Non-Disclosure Agreement" then
      if isSubstr ("mutual").data text_lower then ("Mutual NDA").data else ("One-way NDA").data
    else match p.sub_types with
      | [] => []
      | st :: _ => st.data

/-- `ContractClassifier.classify`. -/
def classify (text : Str) : ClassificationResult :=
  match classifyScores text with
  | [] =>
    { contract_type := ("Unknown").data, confidence := 0, sub_type := [], key_indicators := [] }
  | c :: t =>
    let best := maxByFirst (fun x => x.2.1) c t
    let confidence : ℚ := min 1 ((best.2.1 : ℚ) / ((max_possible best.1 : ℚ) * (3/10)))
    { contract_type := best.1.pname.data
      confidence := pyRound 2 confidence
      sub_type := determine_sub_type (asciiLower text) best.1
      key_indicators := best.2.2 }

/-- `classify` with the instance state `self.result` threaded
explicitly: the method overwrites it with the fresh result. -/
def classify_S (st : Option ClassificationResult) (text : Str) :
    ClassificationResult × Option ClassificationResult :=
  let _ := st
  let r := classify text
  (r, some r)

/-! ## Risk assessor (core/risk_assessor.py) -/

inductive RiskLevel where
  | LOW : RiskLevel
  | MEDIUM : RiskLevel
  | HIGH : RiskLevel
  | CRITICAL : RiskLevel
deriving DecidableEq, Repr, Inhabited

/-- A single risk finding (dataclass `RiskFinding`). -/
structure RiskFinding where
  clause_id : Str
  risk_type : Str
  risk_level : RiskLevel
  score : ℚ
  description : Str
  original_text : Str
  suggestion : Str
  indian_law_reference : Str
deriving DecidableEq, Repr, Inhabited

/-- The complete risk report (dataclass `RiskReport`). -/
structure RiskReport where
  overall_score : ℚ
  overall_level : RiskLevel
  high_risk_count : Nat
  medium_risk_count : Nat
  low_risk_count : Nat
  findings : List RiskFinding
  summary : Str
deriving DecidableEq, Repr

/-- Association-list lookup keyed by `String` against a runtime `Str`. -/
def lookupS {α : Type} (table : List (String × α)) (key : Str) : Option α :=
  match table with
  | [] => none
  | kv :: t => if kv.1.data = key then some kv.2 else lookupS t key

/-- `RiskAssessor.RISK_WEIGHTS`. -/
def RISK_WEIGHTS : List (String × ℚ) := [
  ("unlimited_liability", 9),
  ("one_sided_indemnity", 8),
  ("unilateral_termination", 8),
  ("ip_full_transfer", 8),
  ("broad_non_compete", 7),
  ("excessive_penalty", 7),
  ("auto_renewal_hidden", 6),
  ("unfavorable_jurisdiction", 6),
  ("vague_termination", 5),
  ("missing_liability_cap", 5),
  ("missing_notice_period", 4),
  ("ambiguous_deliverables", 4),
  ("missing_dispute_resolution", 4),
  ("unclear_payment_terms", 3),
  ("missing_confidentiality", 3)]

/-- One entry of `RiskAssessor.RISK_PATTERNS`. -/
structure RiskInfo where
  patterns : List RE
  description : String
  suggestion : String
  indian_law : String

/-- `RiskAssessor.RISK_PATTERNS`, with every Python pattern compiled
(original pattern text in the comments). -/
def RISK_PATTERNS : List (String × RiskInfo) := [
  ("unlimited_liability",
   { patterns := [
       -- unlimited\s+liability
       rPhrase ["unlimited", "liability"],
       -- liable\s+for\s+all\s+(?:damages|losses|claims)
       rCat [rStr "liable", rWs, rStr "for", rWs, rStr "all", rWs,
         rAlt [rStr "damages", rStr "losses", rStr "claims"]],
       -- full\s+liability\s+for
       rPhrase ["full", "liability", "for"],
       -- no\s+limitation\s+(?:on|of)\s+liability
       rCat [rStr "no", rWs, rStr "limitation", rWs, rAlt [rStr "on", rStr "of"],
         rWs, rStr "liability"]]
     description := "Unlimited liability exposure"
     suggestion := "Negotiate a liability cap (typically 12 months of fees or specific amount)"
     indian_law := "Indian Contract Act, Section 73-74 allows for reasonable limitation" }),
  ("one_sided_indemnity",
   { patterns := [
       -- (?:vendor|contractor|employee|consultant)\s+shall\s+(?:fully\s+)?indemnify
       rCat [rAlt [rStr "vendor", rStr "contractor", rStr "employee", rStr "consultant"],
         rWs, rStr "shall", rWs, rOpt (rCat [rStr "fully", rWs]), rStr "indemnify"],
       -- indemnify\s+(?:and\s+hold\s+harmless\s+)?(?:the\s+)?(?:company|employer|client)
       rCat [rStr "indemnify", rWs,
         rOpt (rCat [rStr "and", rWs, rStr "hold", rWs, rStr "harmless", rWs]),
         rOpt (rCat [rStr "the", rWs]),
         rAlt [rStr "company", rStr "employer", rStr "client"]],
       -- defend\s+(?:and\s+)?indemnify.*(?:all|any)\s+claims
       rCat [rStr "defend", rWs, rOpt (rCat [rStr "and", rWs]), rStr "indemnify",
         rDotStar, rAlt [rStr "all", rStr "any"], rWs, rStr "claims"]]
     description := "One-sided indemnification favoring the other party"
     suggestion := "Request mutual indemnification or limit indemnity scope"
     indian_law := "Should be mutual per fair contract principles" }),
  ("unilateral_termination",
   { patterns := [
       -- (?:company|employer|client)\s+may\s+terminate\s+(?:at\s+any\s+time|without\s+cause|immediately|forthwith)
       rCat [rAlt [rStr "company", rStr "employer", rStr "client"], rWs, rStr "may",
         rWs, rStr "terminate", rWs,
         rAlt [rPhrase ["at", "any", "time"], rPhrase ["without", "cause"],
           rStr "immediately", rStr "forthwith"]],
       -- terminate\s+(?:this\s+agreement\s+)?at\s+(?:its?\s+)?sole\s+discretion
       rCat [rStr "terminate", rWs, rOpt (rCat [rStr "this", rWs, rStr "agreement", rWs]),
         rStr "at", rWs, rOpt (rCat [rStr "it", rOpt (rChar 's'), rWs]),
         rStr "sole", rWs, rStr "discretion"],
       -- reserved?\s+(?:the\s+)?right\s+to\s+terminate\s+without
       rCat [rStr "reserve", rOpt (rChar 'd'), rWs, rOpt (rCat [rStr "the", rWs]),
         rStr "right", rWs, rStr "to", rWs, rStr "terminate", rWs, rStr "without"]]
     description := "Only one party can terminate without cause"
     suggestion := "Ensure mutual termination rights with reasonable notice period"
     indian_law := "Indian Contract Act requires reasonable opportunity to cure" }),
  ("ip_full_transfer",
   { patterns := [
       -- assign(?:s|ed)?\s+all\s+(?:right|title|interest).*(?:intellectual\s+property|ip|work\s+product)
       rCat [rStr "assign", rOpt (rAlt [rStr "s", rStr "ed"]), rWs, rStr "all", rWs,
         rAlt [rStr "right", rStr "title", rStr "interest"], rDotStar,
         rAlt [rPhrase ["intellectual", "property"], rStr "ip", rPhrase ["work", "product"]]],
       -- work(?:s)?\s+(?:made\s+)?for\s+hire
       rCat [rStr "work", rOpt (rChar 's'), rWs, rOpt (rCat [rStr "made", rWs]),
         rStr "for", rWs, rStr "hire"],
       -- (?:all|any)\s+(?:inventions?|creations?|developments?).*(?:belong|vest|transfer).*(?:company|employer)
       rCat [rAlt [rStr "all", rStr "any"], rWs,
         rAlt [rCat [rStr "invention", rOpt (rChar 's')],
           rCat [rStr "creation", rOpt (rChar 's')],
           rCat [rStr "development", rOpt (rChar 's')]],
         rDotStar, rAlt [rStr "belong", rStr "vest", rStr "transfer"], rDotStar,
         rAlt [rStr "company", rStr "employer"]],
       -- irrevocable.*(?:license|assignment|transfer).*(?:ip|intellectual)
       rCat [rStr "irrevocable", rDotStar,
         rAlt [rStr "license", rStr "assignment", rStr "transfer"], rDotStar,
         rAlt [rStr "ip", rStr "intellectual"]]]
     description := "Complete transfer of intellectual property rights"
     suggestion := "Negotiate to retain rights to pre-existing IP and general knowledge"
     indian_law := "Copyright Act, 1957 - Assignment should be in writing and specific" }),
  ("broad_non_compete",
   { patterns := [
       -- (?:shall\s+)?not\s+(?:directly\s+or\s+indirectly\s+)?(?:engage|work|compete).*(?:worldwide|global|any\s+(?:market|territory))
       rCat [rOpt (rCat [rStr "shall", rWs]), rStr "not", rWs,
         rOpt (rCat [rStr "directly", rWs, rStr "or", rWs, rStr "indirectly", rWs]),
         rAlt [rStr "engage", rStr "work", rStr "compete"], rDotStar,
         rAlt [rStr "worldwide", rStr "global",
           rCat [rStr "any", rWs, rAlt [rStr "market", rStr "territory"]]]],
       -- non-compete.*(?:[2-9]|[1-9]\d+)\s+years
       rCat [rStr "non-compete", rDotStar,
         rAlt [.cls (.range '2' '9'), rCat [.cls (.range '1' '9'), rDigits1]],
         rWs, rStr "years"],
       -- restrain(?:ed|t)?\s+from\s+(?:engaging|working|competing).*(?:perpetual|indefinite)
       rCat [rStr "restrain", rOpt (rAlt [rStr "ed", rStr "t"]), rWs, rStr "from", rWs,
         rAlt [rStr "engaging", rStr "working", rStr "competing"], rDotStar,
         rAlt [rStr "perpetual", rStr "indefinite"]]]
     description := "Overly broad non-compete restrictions"
     suggestion := "Limit geographic scope and duration (6-12 months is typical in India)"
     indian_law := "Section 27 of Indian Contract Act - Restraint of trade is void unless reasonable" }),
  ("excessive_penalty",
   { patterns := [
       -- (?:penalty|liquidated\s+damages)\s+(?:of|equal\s+to)\s+(?:rs\.?|inr|rupee-sign)\s*(?:[5-9]\d x5+ |[1-9]\d x6+ )
       rCat [rAlt [rStr "penalty", rPhrase ["liquidated", "damages"]], rWs,
         rAlt [rStr "of", rPhrase ["equal", "to"]], rWs, rRsLower, rWsStar,
         rAlt [rCat [.cls (.range '5' '9'), .rep 5 none true rDigit],
           rCat [.cls (.range '1' '9'), .rep 6 none true rDigit]]],
       -- forfeit.*(?:entire|full|all).*(?:amount|fee|payment)
       rCat [rStr "forfeit", rDotStar, rAlt [rStr "entire", rStr "full", rStr "all"],
         rDotStar, rAlt [rStr "amount", rStr "fee", rStr "payment"]],
       -- penalty.*(?:double|triple|twice|thrice)
       rCat [rStr "penalty", rDotStar,
         rAlt [rStr "double", rStr "triple", rStr "twice", rStr "thrice"]]]
     description := "Potentially excessive penalty clauses"
     suggestion := "Negotiate reasonable and proportionate penalties"
     indian_law := "Section 74 of Indian Contract Act - Only reasonable compensation is recoverable" }),
  ("auto_renewal_hidden",
   { patterns := [
       -- (?:automatically|auto)\s+renew(?:ed|s)?
       rCat [rAlt [rStr "automatically", rStr "auto"], rWs, rStr "renew",
         rOpt (rAlt [rStr "ed", rStr "s"])],
       -- shall\s+(?:continue|renew)\s+(?:for|unless).*(?:notice|terminated)
       rCat [rStr "shall", rWs, rAlt [rStr "continue", rStr "renew"], rWs,
         rAlt [rStr "for", rStr "unless"], rDotStar,
         rAlt [rStr "notice", rStr "terminated"]],
       -- evergreen\s+(?:clause|term|provision)
       rCat [rStr "evergreen", rWs, rAlt [rStr "clause", rStr "term", rStr "provision"]]]
     description := "Automatic renewal clause that may lock you in"
     suggestion := "Add clear opt-out mechanism with reasonable notice period"
     indian_law := "Consumer Protection Act, 2019 requires clear disclosure" }),
  ("unfavorable_jurisdiction",
   { patterns := [
       -- (?:exclusive\s+)?jurisdiction\s+(?:of|in)\s+(?:courts?\s+(?:of|in)\s+)?(?:london|new\s+york|singapore|hong\s+kong|us|uk|england)
       rCat [rOpt (rCat [rStr "exclusive", rWs]), rStr "jurisdiction", rWs,
         rAlt [rStr "of", rStr "in"], rWs,
         rOpt (rCat [rStr "court", rOpt (rChar 's'), rWs, rAlt [rStr "of", rStr "in"], rWs]),
         rAlt [rStr "london", rPhrase ["new", "york"], rStr "singapore",
           rPhrase ["hong", "kong"], rStr "us", rStr "uk", rStr "england"]],
       -- governed\s+by.*(?:laws?\s+of\s+)?(?:england|new\s+york|singapore|delaware)
       rCat [rStr "governed", rWs, rStr "by", rDotStar,
         rOpt (rCat [rStr "law", rOpt (rChar 's'), rWs, rStr "of", rWs]),
         rAlt [rStr "england", rPhrase ["new", "york"], rStr "singapore", rStr "delaware"]]]
     description := "Foreign jurisdiction may be costly and inconvenient"
     suggestion := "Negotiate for local Indian jurisdiction (preferably your state)"
     indian_law := "Indian courts should have jurisdiction for domestic parties" }),
  ("vague_termination",
   { patterns := [
       -- terminate.*(?:any\s+reason|no\s+reason|whatsoever)
       rCat [rStr "terminate", rDotStar,
         rAlt [rPhrase ["any", "reason"], rPhrase ["no", "reason"], rStr "whatsoever"]],
       -- (?:at\s+will|without\s+cause).*terminat
       rCat [rAlt [rPhrase ["at", "will"], rPhrase ["without", "cause"]], rDotStar,
         rStr "terminat"]]
     description := "Vague termination grounds without proper process"
     suggestion := "Define specific grounds for termination and cure periods"
     indian_law := "Industrial Disputes Act requires proper process for employment termination" }),
  ("missing_liability_cap",
   { patterns := [
       -- (?:no|without)\s+(?:limitation|cap|ceiling)\s+(?:on|of)\s+(?:liability|damages)
       rCat [rAlt [rStr "no", rStr "without"], rWs,
         rAlt [rStr "limitation", rStr "cap", rStr "ceiling"], rWs,
         rAlt [rStr "on", rStr "of"], rWs, rAlt [rStr "liability", rStr "damages"]]]
     description := "No cap on liability exposure"
     suggestion := "Include liability cap (e.g., total fees paid in last 12 months)"
     indian_law := "Parties can contractually limit liability under Indian Contract Act" })]

/-- `RiskAssessor._score_to_level`. -/
def score_to_level (score : ℚ) : RiskLevel :=
  if 8 ≤ score then .CRITICAL
  else if 6 ≤ score then .HIGH
  else if 4 ≤ score then .MEDIUM
  else .LOW

/-- One candidate document-wide finding of `_analyze_text_risks`: a
match of pattern of risk type `rt` at span `[s, e)` of the lower-cased
text; the context window is 100 characters on each side, sliced from
the original text. -/
def mkDocFinding (text : Str) (rt : String) (info : RiskInfo) (s e : Nat) : RiskFinding :=
  let context := sliceL text (s - 100) (Nat.min text.length (e + 100))
  let score := ((lookupS RISK_WEIGHTS rt.data).getD 5 : ℚ)
  { clause_id := ("general").data
    risk_type := pyTitle (underscoresToSpaces rt.data)
    risk_level := score_to_level score
    score := score
    description := info.description.data
    original_text := pyStrip context
    suggestion := info.suggestion.data
    indian_law_reference := info.indian_law.data }

/-- All candidate document-wide findings, in the iteration order of
`_analyze_text_risks` (risk type, then pattern, then match). -/
def docFindingCandidates (text : Str) : List RiskFinding :=
  ((RISK_PATTERNS.map (fun rp =>
    (rp.2.patterns.map (fun p =>
      (reFindIter cfgCI p (asciiLower text)).map (fun m =>
        mkDocFinding text rp.1 rp.2 m.1 m.2.1))).flatten)).flatten)

/-- The duplicate check of `_analyze_text_risks`: a candidate is
appended unless a finding with the same risk type and context already
exists. -/
def addTextFinding (fs : List RiskFinding) (f : RiskFinding) : List RiskFinding :=
  if fs.any (fun g => g.risk_type = f.risk_type ∧ g.original_text = f.original_text) then fs
  else fs ++ [f]

/-- `RiskAssessor._analyze_text_risks` acting on the accumulated
`self.findings`. -/
def analyze_text_risks (text : Str) (fs0 : List RiskFinding) : List RiskFinding :=
  (docFindingCandidates text).foldl addTextFinding fs0

/-- A clause dictionary as handed to `assess_contract` (the keys
`_analyze_clause_risks` reads, plus the extra keys `app.py` passes). -/
structure ClauseDict where
  clause_id : Option Str
  number : Option Str
  title : Str
  content : Str
  category : Str
  risk_indicators : List Str
deriving DecidableEq, Repr

/-- `clause.get("clause_id", clause.get("number", "unknown"))`. -/
def clauseDictId (cl : ClauseDict) : Str :=
  match cl.clause_id with
  | some v => v
  | none => match cl.number with | some v => v | none => ("unknown").data

/-- The finding `_analyze_clause_risks` builds for a weighted
indicator. -/
def mkClauseFinding (cl : ClauseDict) (ind : Str) (w : ℚ) : RiskFinding :=
  let info := lookupS RISK_PATTERNS ind
  { clause_id := clauseDictId cl
    risk_type := pyTitle (underscoresToSpaces ind)
    risk_level := score_to_level w
    score := w
    description := match info with | some i => i.description.data | none => ind
    original_text := cl.content.take 200
    suggestion := match info with | some i => i.suggestion.data | none => []
    indian_law_reference := match info with | some i => i.indian_law.data | none => [] }

/-- Candidate findings of one clause: one per indicator that is a key
of `RISK_WEIGHTS` (indicators absent from the weight table are
skipped by the `if indicator in self.RISK_WEIGHTS` guard). -/
def clauseFindingCandidates (cl : ClauseDict) : List RiskFinding :=
  cl.risk_indicators.filterMap (fun ind =>
    match lookupS RISK_WEIGHTS ind with
    | none => none
    | some w => some (mkClauseFinding cl ind w))

/-- The duplicate check of `_analyze_clause_risks`: a candidate is
appended unless a finding with the same clause id and risk type
already exists. -/
def addClauseFinding (fs : List RiskFinding) (f : RiskFinding) : List RiskFinding :=
  if fs.any (fun g => g.clause_id = f.clause_id ∧ g.risk_type = f.risk_type) then fs
  else fs ++ [f]

/-- `RiskAssessor._analyze_clause_risks`. -/
def analyze_clause_risks (fs0 : List RiskFinding) (cl : ClauseDict) : List RiskFinding :=
  (clauseFindingCandidates cl).foldl addClauseFinding fs0

/-- One entry of the `missing_checks` table of
`_check_missing_protections`. -/
structure MissingCheck where
  mname : String
  check : List String
  description : String
  suggestion : String
  mscore : ℚ

def missing_checks : List MissingCheck := [
  { mname := "liability_cap"
    check := ["limitation of liability", "liability cap", "liability shall not exceed",
      "maximum liability"]
    description := "Missing liability limitation clause"
    suggestion := "Add a clause capping total liability exposure"
    mscore := 5 },
  { mname := "dispute_resolution"
    check := ["arbitration", "dispute resolution", "mediation", "conciliation"]
    description := "Missing dispute resolution mechanism"
    suggestion := "Include arbitration clause as per Arbitration and Conciliation Act, 1996"
    mscore := 4 },
  { mname := "notice_period"
    check := ["notice period", "days notice", "written notice", "prior notice"]
    description := "Missing or unclear notice period requirements"
    suggestion := "Specify clear notice periods for termination and other actions"
    mscore := 4 },
  { mname := "force_majeure"
    check := ["force majeure", "act of god", "unforeseen circumstances"]
    description := "Missing force majeure clause"
    suggestion := "Add force majeure clause to protect against unforeseen events"
    mscore := 3 },
  { mname := "confidentiality"
    check := ["confidential", "non-disclosure", "proprietary information", "trade secret"]
    description := "Missing confidentiality provisions"
    suggestion := "Include mutual confidentiality obligations"
    mscore := 3 }]

/-- The finding `_check_missing_protections` appends for an absent
protective topic. -/
def missingFindingFor (c : MissingCheck) : RiskFinding :=
  { clause_id := ("missing").data
    risk_type := ("Missing ").data ++ pyTitle (underscoresToSpaces c.mname.data)
    risk_level := score_to_level c.mscore
    score := c.mscore
    description := c.description.data
    original_text := ("[Not found in contract]").data
    suggestion := c.suggestion.data
    indian_law_reference := [] }

/-- The findings of the missing-protection pass for a document: one per
check whose keyword synonyms all fail to occur in the lower-cased
text. -/
def missingFindings (text : Str) : List RiskFinding :=
  let tl := asciiLower text
  (missing_checks.filter (fun c => ¬ (c.check.any (fun kw => isSubstr kw.data tl)))).map
    missingFindingFor

/-- `RiskAssessor._check_missing_protections` (appends without any
duplicate check). -/
def check_missing_protections (text : Str) (fs0 : List RiskFinding) : List RiskFinding :=
  fs0 ++ missingFindings text

/-- Stable insertion for descending score order (Python's stable
`sorted(..., key=lambda x: x.score, reverse=True)`). -/
def insScoreDesc (f : RiskFinding) : List RiskFinding → List RiskFinding
  | [] => [f]
  | g :: t => if f.score < g.score then g :: insScoreDesc f t else f :: g :: t

def sortFindingsDesc (l : List RiskFinding) : List RiskFinding := l.foldr insScoreDesc []

/-- Count of findings at a given severity level. -/
def countLevel (fs : List RiskFinding) (lv : RiskLevel) : Nat :=
  (fs.filter (fun f => f.risk_level = lv)).length

/-- The severity-adjusted average of `_calculate_overall_score`: the
mean of all finding scores, boosted (capped at 10) by half a point per
CRITICAL finding when any exists, and by a further flat half point
when there are more than two strictly-HIGH findings. -/
def boostedAvg (fs : List RiskFinding) : ℚ :=
  let avg := (fs.map (fun f => f.score)).sum / (fs.length : ℚ)
  let c := countLevel fs .CRITICAL
  let h := countLevel fs .HIGH
  let avg1 := if 0 < c then min 10 (avg + (c : ℚ) * (1/2)) else avg
  if 2 < h then min 10 (avg1 + 1/2) else avg1

/-- Join a list of strings with a separator (Python `sep.join`). -/
def joinSep (sep : Str) (l : List Str) : Str := (l.intersperse sep).flatten

/-- The summary sentence of `_calculate_overall_score`. -/
def summary_text (fs : List RiskFinding) : Str :=
  let c := countLevel fs .CRITICAL
  let h := countLevel fs .HIGH
  let m := countLevel fs .MEDIUM
  let parts :=
    (if 0 < c then [natToStr c ++ (" critical risk(s) require immediate attention").data] else [])
    ++ (if 0 < h then [natToStr h ++ (" high-risk clause(s) should be renegotiated").data] else [])
    ++ (if 0 < m then [natToStr m ++ (" medium-risk item(s) to review").data] else [])
  match parts with
  | [] => ("Contract has acceptable risk levels.").data
  | _ => joinSep (". ").data parts

/-- `RiskAssessor._calculate_overall_score`. -/
def calculate_overall_score (fs : List RiskFinding) : RiskReport :=
  if fs.isEmpty then
    { overall_score := 2
      overall_level := .LOW
      high_risk_count := 0
      medium_risk_count := 0
      low_risk_count := 0
      findings := []
      summary := ("No significant risks found. Contract appears well-balanced.").data }
  else
    { overall_score := pyRound 1 (boostedAvg fs)
      overall_level := score_to_level (boostedAvg fs)
      high_risk_count := countLevel fs .CRITICAL + countLevel fs .HIGH
      medium_risk_count := countLevel fs .MEDIUM
      low_risk_count := countLevel fs .LOW
      findings := sortFindingsDesc fs
      summary := summary_text fs }

/-- The mutable state of a `RiskAssessor` object. -/
structure AssessorState where
  findings : List RiskFinding
  overall_score : ℚ
deriving Repr

/-- A fresh `RiskAssessor()`. -/
def assessorInit : AssessorState := { findings := [], overall_score := 0 }

/-- All findings of one assessment, in discovery order: document-wide
scan, then the per-clause pass (skipped for an empty/absent clause
list, Python's `if clauses:`), then the missing-protection pass. -/
def collectFindings (text : Str) (clauses : List ClauseDict) : List RiskFinding :=
  let fs1 := analyze_text_risks text []
  let fs2 := if clauses.isEmpty then fs1 else clauses.foldl analyze_clause_risks fs1
  check_missing_protections text fs2

/-- `RiskAssessor.assess_contract` with the instance state threaded
explicitly (the method first resets `self.findings = []`). -/
def assess_contract (st : AssessorState) (text : Str) (clauses : List ClauseDict) :
    RiskReport × AssessorState :=
  let fs := collectFindings text clauses
  (calculate_overall_score fs, { st with findings := fs })

/-- Python `max` over a nonempty list of rationals. -/
def pyMaxQ (l : List ℚ) : ℚ := l.foldl max (l.headD 0)

/-- `RiskAssessor.get_clause_risk_score`. -/
def get_clause_risk_score (clause_content : Str) : ℚ × RiskLevel × List Str :=
  let content_lower := asciiLower clause_content
  let fnd := RISK_PATTERNS.foldl (fun acc rp =>
    if rp.2.patterns.any (fun p => reTest cfgCI p content_lower) then acc ++ [rp.1.data]
    else acc) []
  if fnd.isEmpty then (2, .LOW, [])
  else
    let max_score := pyMaxQ (fnd.map (fun f => (lookupS RISK_WEIGHTS f).getD 5))
    (max_score, score_to_level max_score, fnd)

/-! ## Document-level dimension extraction
(`ClauseExtractor.extract_data_dimensions`) -/

/-- The flat dimensions mapping built by `extract_data_dimensions`
(keys that the function never fills stay empty). -/
structure Dimensions where
  parties : List Str
  financial_amounts : List Str
  obligations : List Str
  liabilities : List Str
  deliverables : List Str
  timeline : List Str
  duration : Option Str
  termination_conditions : List Str
  jurisdiction : Option Str
  governing_law : Option Str
  ip_rights : List Str
  confidentiality_terms : List Str
  nda_terms : List Str
deriving DecidableEq, Repr

/-- an apostrophe character (the quote in the third party pattern) -/
def quoteC : Char := Char.ofNat 39

-- (?:between|BETWEEN)\s+(.+?)\s+(?:and|AND)\s+(.+?)(?:\.|,|\n)
def rePartyBetween : RE := rCat [
  rAlt [rStr "between", rStr "BETWEEN"], rWs,
  RE.grp 1 (.rep 1 none false rDot), rWs,
  rAlt [rStr "and", rStr "AND"], rWs,
  RE.grp 2 (.rep 1 none false rDot),
  rAlt [rChar '.', rChar ',', rChar '\n']]

-- (?:Party\s*[AB12])[:\s]+(.+?)(?:\n|,|\.)
def rePartyLabel : RE := rCat [
  rStr "Party", rWsStar,
  .cls (.union (.one 'A') (.union (.one 'B') (.union (.one '1') (.one '2')))),
  rPlus (.cls (.union (.one ':') .space)),
  RE.grp 1 (.rep 1 none false rDot),
  rAlt [rChar '\n', rChar ',', rChar '.']]

-- (?:hereinafter.*(?:called|referred).*["...](.+?)["...])
def rePartyHereinafter : RE := rCat [
  rStr "hereinafter", rDotStar, rAlt [rStr "called", rStr "referred"], rDotStar,
  .cls (.union (.one '"') (.one quoteC)),
  RE.grp 1 (.rep 1 none false rDot),
  .cls (.union (.one '"') (.one quoteC))]

-- (?:Rs\.?|INR|rupee-sign|\$)\s*([\d,]+(?:\.\d\d)?)   (no flags: case-sensitive)
def reAmountDim : RE := rCat [
  rAlt [rCat [rStr "Rs", rOpt (rChar '.')], rStr "INR", rChar '₹', rChar '$'],
  rWsStar,
  RE.grp 1 (rCat [rDigitComma, rOpt (rCat [rChar '.', .rep 2 (some 2) true rDigit])])]

-- (?:term|period|duration)\s+(?:of\s+)?(\d+)\s+(years?|months?|days?)
def reDurationDim : RE := rCat [
  rAlt [rStr "term", rStr "period", rStr "duration"], rWs,
  rOpt (rCat [rStr "of", rWs]),
  RE.grp 1 rDigits1, rWs,
  RE.grp 2 (rAlt [rCat [rStr "year", rOpt (rChar 's')],
    rCat [rStr "month", rOpt (rChar 's')], rCat [rStr "day", rOpt (rChar 's')]])]

-- (?:governed by|subject to|jurisdiction of)\s+(?:the\s+)?(?:laws?\s+of\s+)?([A-Za-z\s,]+)(?:\.|\n|$)
def reJurisdictionDim : RE := rCat [
  rAlt [rStr "governed by", rStr "subject to", rStr "jurisdiction of"], rWs,
  rOpt (rCat [rStr "the", rWs]),
  rOpt (rCat [rStr "law", rOpt (rChar 's'), rWs, rStr "of", rWs]),
  RE.grp 1 (rPlus (.cls (.union (.range 'A' 'Z')
    (.union (.range 'a' 'z') (.union .space (.one ',')))))),
  rAlt [rChar '.', rChar '\n', RE.eol]]

-- (?:may\s+terminate|terminate.*(?:if|upon|when))(.+?)(?:\.|;|$)
def reTermCondDim : RE := rCat [
  rAlt [rPhrase ["may", "terminate"],
    rCat [rStr "terminate", rDotStar, rAlt [rStr "if", rStr "upon", rStr "when"]]],
  RE.grp 1 (.rep 1 none false rDot),
  rAlt [rChar '.', rChar ';', RE.eol]]

-- (?:intellectual\s+property|patent|copyright|trademark|invention)(. x0-200)
def reIpDim : RE := rCat [
  rAlt [rPhrase ["intellectual", "property"], rStr "patent", rStr "copyright",
    rStr "trademark", rStr "invention"],
  RE.grp 1 (.rep 0 (some 200) true rDot)]

-- (?:^|\n)\s*(?:\d+(?:\.\d+)*\.?\s*)?[^\n]*KEYWORD[^\n]*\n(.+?)(?=(?:^|\n)\s*\d+(?:\.\d+)*\.\s*[A-Z]|\Z)
-- built by `_extract_section` with the keyword interpolated
def sectionRE (kw : String) : RE := rCat [
  rAlt [RE.bol, rChar '\n'], rWsStar,
  rOpt (rCat [rDigits1, rStar (rCat [rChar '.', rDigits1]), rOpt (rChar '.'), rWsStar]),
  rStar rNotNl, rStr kw, rStar rNotNl, rChar '\n',
  RE.grp 1 (.rep 1 none false rDot),
  RE.look (rAlt [
    rCat [rAlt [RE.bol, rChar '\n'], rWsStar, rDigits1,
      rStar (rCat [rChar '.', rDigits1]), rChar '.', rWsStar, .cls (.range 'A' 'Z')],
    RE.eos])]

/-- `ClauseExtractor._extract_section`: first keyword whose built
pattern matches yields the whole match truncated to 1000 characters. -/
def extract_section (text : Str) : List String → Option Str
  | [] => none
  | kw :: rest =>
    match reSearch cfgCIMLDotall (sectionRE kw) text with
    | some m => some ((sliceL text m.1 m.2.1).take 1000)
    | none => extract_section text rest

/-- `ClauseExtractor.extract_data_dimensions`. -/
def extract_data_dimensions (text : Str) : Dimensions :=
  let parties1 := ((reFindIter cfgCIDotall rePartyBetween text).map (fun m =>
    ([grpStr text m.2.2 1, grpStr text m.2.2 2].map pyStrip).filter
      (fun x => ¬ (x = [])))).flatten
  let parties2 := (reFindIter cfgCIDotall rePartyLabel text).map (fun m =>
    pyStrip (grpStr text m.2.2 1))
  let parties3 := (reFindIter cfgCIDotall rePartyHereinafter text).map (fun m =>
    pyStrip (grpStr text m.2.2 1))
  let dur := match reSearch cfgCI reDurationDim text with
    | none => none
    | some m => some (grpStr text m.2.2 1 ++ (' ' :: grpStr text m.2.2 2))
  let jur := match reSearch cfgCI reJurisdictionDim text with
    | none => none
    | some m => some (pyStrip (grpStr text m.2.2 1))
  let tc := match extract_section text ["termination", "terminate"] with
    | none => []
    | some sec => ((reFindIter cfgCI reTermCondDim sec).take 5).map (fun m =>
        (pyStrip (grpStr sec m.2.2 1)).take 200)
  let conf := match extract_section text ["confidential", "non-disclosure", "nda"] with
    | none => []
    | some sec => [sec.take 500]
  { parties := (pySetList (parties1 ++ parties2 ++ parties3)).take 10
    financial_amounts := ((reFindIter cfgCS reAmountDim text).map (fun m =>
      grpStr text m.2.2 1)).take 20
    obligations := []
    liabilities := []
    deliverables := []
    timeline := []
    duration := dur
    termination_conditions := tc
    jurisdiction := jur
    governing_law := jur
    ip_rights := ((reFindIter cfgCI reIpDim text).take 5).map (fun m =>
      (pyStrip (grpStr text m.2.2 1)).take 200)
    confidentiality_terms := conf
    nda_terms := [] }

/-! ## The full pipeline of `app.py` (classification, clause
extraction, dimension extraction, risk assessment) -/

/-- The mutable state of the three component instances. -/
structure PipeState where
  extractorClauses : List ExtractedClause
  classifierResult : Option ClassificationResult
  assessor : AssessorState

/-- The output structures one pipeline invocation hands the caller. -/
structure PipelineOut where
  classification : ClassificationResult
  clauses : List ExtractedClause
  dimensions : Dimensions
  report : RiskReport
deriving DecidableEq, Repr

/-- The clause dictionaries `app.py` builds from extracted clauses
before calling `assess_contract`. -/
def clauseToDict (c : ExtractedClause) : ClauseDict :=
  { clause_id := some c.clause_id
    number := none
    title := c.title
    content := c.content
    category := c.category
    risk_indicators := c.risk_indicators }

/-- One run of the analysis pipeline of `app.py` (classify, extract
clauses, extract dimensions, assess risks), threading every component
instance's state. -/
def run_pipeline (st : PipeState) (text : Str) : PipelineOut × PipeState :=
  let cres := classify_S st.classifierResult text
  let eres := extract_clauses_S st.extractorClauses text
  let dims := extract_data_dimensions text
  let ares := assess_contract st.assessor text ((eres.1).map clauseToDict)
  ({ classification := cres.1, clauses := eres.1, dimensions := dims, report := ares.1 },
   { extractorClauses := eres.2, classifierResult := cres.2, assessor := ares.2 })

/-! ## Helper lemmas -/

theorem maxByFirst_mem {α : Type} (val : α → Nat) :
    ∀ (x : α) (l : List α), maxByFirst val x l = x ∨ maxByFirst val x l ∈ l
  | _, [] => Or.inl rfl
  | x, y :: t => by
    simp only [maxByFirst]
    by_cases h : val x < val y
    · simp only [h, if_pos]
      rcases maxByFirst_mem val y t with h2 | h2
      · exact Or.inr (by simp [h2])
      · exact Or.inr (by simp [h2])
    · simp only [h, if_neg, not_false_iff]
      rcases maxByFirst_mem val x t with h2 | h2
      · exact Or.inl h2
      · exact Or.inr (by simp [h2])

/-- The accumulating loop with a conditional append is the filtered,
mapped list. -/
theorem foldl_append_filter {α β : Type} (p : α → Bool) (g : α → β) :
    ∀ (l : List α) (acc : List β),
      l.foldl (fun a x => if p x then a ++ [g x] else a) acc = acc ++ (l.filter p).map g
  | [], acc => by simp
  | x :: t, acc => by
    by_cases h : p x
    · simp [List.foldl, h, foldl_append_filter p g t (acc ++ [g x])]
    · simp [List.foldl, h, foldl_append_filter p g t acc]

theorem foldl_max_spec :
    ∀ (t : List ℚ) (a : ℚ),
      (t.foldl max a = a ∨ t.foldl max a ∈ t) ∧ a ≤ t.foldl max a ∧
        ∀ x ∈ t, x ≤ t.foldl max a := by
  intro t
  induction t with
  | nil => intro a; simp
  | cons y ys ih =>
    intro a
    rcases ih (max a y) with ⟨hmem, hle, hall⟩
    simp only [List.foldl]
    refine ⟨?_, le_trans (le_max_left a y) hle, ?_⟩
    · rcases hmem with h | h
      · rcases le_total a y with hay | hya
        · exact Or.inr (by rw [h, max_eq_right hay]; exact List.mem_cons_self _ _)
        · exact Or.inl (by rw [h, max_eq_left hya])
      · exact Or.inr (List.mem_cons_of_mem _ h)
    · intro x hx
      rcases List.mem_cons.mp hx with rfl | hx
      · exact le_trans (le_max_right a x) hle
      · exact hall x hx

theorem pyMaxQ_spec (l : List ℚ) (hl : l ≠ []) : pyMaxQ l ∈ l ∧ ∀ x ∈ l, x ≤ pyMaxQ l := by
  match l, hl with
  | a :: t, _ =>
    have h0 : pyMaxQ (a :: t) = t.foldl max a := by
      simp [pyMaxQ, List.foldl, List.headD, max_self]
    rcases foldl_max_spec t a with ⟨hmem, hle, hall⟩
    rw [h0]
    refine ⟨?_, ?_⟩
    · rcases hmem with h | h
      · rw [h]; exact List.mem_cons_self _ _
      · exact List.mem_cons_of_mem _ h
    · intro x hx
      rcases List.mem_cons.mp hx with rfl | hx
      · exact hle
      · exact hall x hx

/-! Lemmas about the stable descending insertion sort used for the
report's findings. -/

theorem insScoreDesc_perm (f : RiskFinding) :
    ∀ (l : List RiskFinding), List.Perm (insScoreDesc f l) (f :: l)
  | [] => List.Perm.refl _
  | g :: t => by
    simp only [insScoreDesc]
    by_cases h : f.score < g.score
    · simp only [h, if_pos]
      exact ((insScoreDesc_perm f t).cons g).trans (List.Perm.swap f g t)
    · simp [h]

theorem sortFindingsDesc_perm : ∀ (l : List RiskFinding), List.Perm (sortFindingsDesc l) l
  | [] => List.Perm.refl _
  | f :: t => by
    simp only [sortFindingsDesc, List.foldr]
    exact (insScoreDesc_perm f _).trans ((sortFindingsDesc_perm t).cons f)

theorem insScoreDesc_sorted (f : RiskFinding) :
    ∀ (l : List RiskFinding), List.Pairwise (fun a b => b.score ≤ a.score) l →
      List.Pairwise (fun a b => b.score ≤ a.score) (insScoreDesc f l)
  | [], _ => List.pairwise_singleton _ f
  | g :: t, hp => by
    rcases List.pairwise_cons.mp hp with ⟨hg, ht⟩
    simp only [insScoreDesc]
    by_cases h : f.score < g.score
    · simp only [h, if_pos]
      refine List.pairwise_cons.mpr ⟨?_, insScoreDesc_sorted f t ht⟩
      intro x hx
      rcases List.mem_cons.mp ((insScoreDesc_perm f t).mem_iff.mp hx) with rfl | h2
      · exact le_of_lt h
      · exact hg x h2
    · simp only [h, if_neg, not_false_iff]
      refine List.pairwise_cons.mpr ⟨?_, hp⟩
      intro x hx
      rcases List.mem_cons.mp hx with rfl | h2
      · exact le_of_not_lt h
      · exact le_trans (hg x h2) (le_of_not_lt h)

theorem sortFindingsDesc_sorted :
    ∀ (l : List RiskFinding), List.Pairwise (fun a b => b.score ≤ a.score) (sortFindingsDesc l)
  | [] => List.Pairwise.nil
  | f :: t => insScoreDesc_sorted f _ (sortFindingsDesc_sorted t)

theorem insScoreDesc_filter (f : RiskFinding) (q : ℚ) :
    ∀ (l : List RiskFinding),
      (insScoreDesc f l).filter (fun x => decide (x.score = q))
        = (f :: l).filter (fun x => decide (x.score = q))
  | [] => rfl
  | g :: t => by
    simp only [insScoreDesc]
    by_cases h : f.score < g.score
    · simp only [h, if_pos]
      by_cases hg : g.score = q
      · have hf : ¬ (f.score = q) := fun hf => absurd (hf.trans hg.symm) (ne_of_lt h)
        simp [List.filter, hg, hf, insScoreDesc_filter f q t]
      · simp [List.filter, hg, insScoreDesc_filter f q t]
    · simp [h]

theorem sortFindingsDesc_filter (q : ℚ) :
    ∀ (l : List RiskFinding),
      (sortFindingsDesc l).filter (fun x => decide (x.score = q))
        = l.filter (fun x => decide (x.score = q))
  | [] => rfl
  | f :: t => by
    have h1 := insScoreDesc_filter f q (sortFindingsDesc t)
    have ih := sortFindingsDesc_filter q t
    simp only [sortFindingsDesc, List.foldr] at h1 ih ⊢
    rw [h1]
    simp only [List.filter, ih]

/-! Lemmas about the decimal round-half-to-even model of Python
`round`. -/

theorem ratFloor_eq_floor (x : ℚ) : ratFloor x = ⌊x⌋ := by
  rw [Rat.floor_def, ratFloor, Int.fdiv_eq_ediv _ (Int.natCast_nonneg x.den)]

theorem rhe_cases (x : ℚ) : rhe x = ⌊x⌋ ∨ rhe x = ⌊x⌋ + 1 := by
  unfold rhe
  simp only [ratFloor_eq_floor]
  split_ifs <;> simp

theorem floor_le_rhe (x : ℚ) : ⌊x⌋ ≤ rhe x := by
  rcases rhe_cases x with h | h <;> omega

theorem rhe_nonneg (x : ℚ) (hx : 0 ≤ x) : 0 ≤ rhe x :=
  le_trans (Int.floor_nonneg.mpr hx) (floor_le_rhe x)

theorem rhe_le_of_le (x : ℚ) (n : ℤ) (hx : x ≤ (n : ℚ)) : rhe x ≤ n := by
  have hf : ⌊x⌋ ≤ n := by simpa using Int.floor_mono hx
  rcases lt_or_eq_of_le hf with hlt | heq
  · rcases rhe_cases x with h | h <;> omega
  · have hq : ((⌊x⌋ : ℤ) : ℚ) = (n : ℚ) := by exact_mod_cast congrArg (fun z : ℤ => (z : ℚ)) heq
    have h0 : x - ((⌊x⌋ : ℤ) : ℚ) < 1/2 := by
      rw [hq]
      linarith
    unfold rhe
    simp only [ratFloor_eq_floor, if_pos h0]
    exact hf

theorem rhe_ge_of_ge (x : ℚ) (n : ℤ) (hx : (n : ℚ) ≤ x) : n ≤ rhe x := by
  have hf : n ≤ ⌊x⌋ := Int.le_floor.mpr hx
  exact le_trans hf (floor_le_rhe x)

/-! ## Statement-side definitions (from the claims' wording) -/

/-- The aggregate score exactly as stated in the spec before the
report stores it: `if` there are no findings, the fixed baseline 2,
otherwise the boosted average (no rounding). -/
def preRoundScore (fs : List RiskFinding) : ℚ := if fs = [] then 2 else boostedAvg fs

/-- The confidence value exactly as claim C4 words it:
`min(1.0, best_score / (max_possible_score_for_that_type * 0.3))`,
with no rounding. -/
def claimedConfidenceC4 (text : Str) : ℚ :=
  match classifyScores text with
  | [] => 0
  | c :: t =>
    let best := maxByFirst (fun x => x.2.1) c t
    min 1 ((best.2.1 : ℚ) / ((max_possible best.1 : ℚ) * (3/10)))

/-- The risk types whose patterns match the lower-cased clause text, in
catalog order (the declarative reading of the scanning loop of
`get_clause_risk_score`). -/
def matchedRiskTypes (content : Str) : List Str :=
  (RISK_PATTERNS.filter (fun rp =>
    rp.2.patterns.any (fun p => reTest cfgCI p (asciiLower content)))).map (fun rp => rp.1.data)

/-- The maximum of the matched types' weights, a weight defaulting to 5
for a type absent from the weight table. -/
def maxWeightOf (l : List Str) : ℚ := pyMaxQ (l.map (fun f => (lookupS RISK_WEIGHTS f).getD 5))

/-! ## Concrete documents used to settle the scenarios -/

/-- Scenario 1 of the specification. -/
def scenario1 : String :=
  "1. DEFINITIONS\nTerms defined here.\n2. PAYMENT\nThe Client shall pay Rs. 5,00,000 on signing."

/-- A document whose three missing-protection findings average 11/3,
exposing the one-decimal rounding of the stored overall score. -/
def roundingDoc : String := "arbitration notice period"

/-- A document with three CRITICAL, two HIGH and six MEDIUM findings:
the boosted average is 175/22 (level HIGH), but rounded to one decimal
it becomes 8.0, which the thresholds map to CRITICAL. -/
def levelCrossDoc : String :=
  "arbitration notice period force majeure confidential zqa unlimited liability zqb unlimited liability zqc unlimited liability zqd penalty of rs. 600000 zqe penalty of rs. 700000 zqf without cap on damages zqg without cap on damages zqh without cap on damages zqi without cap on damages zqj without cap on damages zqk"

/-- A document whose first clause body is 2001 characters long once
stripped ("ab", 1998 spaces, "c"), so the stored content (truncated to
2000 characters) ends in spaces and strips down to "ab". -/
def truncationDoc : Str :=
  ("1. A\nab").data ++ List.replicate 1998 ' ' ++ ("c\n2. B\n").data ++ List.replicate 25 'p'

/-! ## The claims -/

/-- C9: running the full pipeline (classification, clause extraction,
dimension extraction, risk assessment) twice on identical input text
yields identical output structures, whatever the component instances'
prior mutable state — in particular when the same instances, carrying
the state left by the first run, are reused for the second run.  Each
method overwrites its instance state before use, so the output depends
only on the input text. -/
theorem pipeline_runs_identical (s1 s2 : PipeState) (text : Str) :
    (run_pipeline s1 text).1 = (run_pipeline s2 text).1 ∧
      (run_pipeline ((run_pipeline s1 text).2) text).1 = (run_pipeline s1 text).1 :=
  ⟨rfl, rfl⟩

set_option maxRecDepth 100000 in
/-- C2 counterexample: on Scenario 1's text the segmenter emits only
the clause labelled "2" — the clause labelled "1" is discarded because
its body "Terms defined here." has 19 characters after trimming — so
the claimed id list ["1", "2"] is wrong. -/
theorem scenario1_counterexample :
    (extract_clauses scenario1.data).map (fun c => c.clause_id) = [("2").data] ∧
      ¬ ((extract_clauses scenario1.data).map (fun c => c.clause_id)
          = [("1").data, ("2").data]) := by
  have h : (extract_clauses scenario1.data).map (fun c => c.clause_id) = [("2").data] := by
    decide
  refine ⟨h, ?_⟩
  rw [h]
  decide

set_option maxRecDepth 100000 in
/-- C2 amended: on Scenario 1's text the segmenter yields exactly one
clause, with id "2", category "payment", and amounts
["Rs. 5,00,000"]. -/
theorem scenario1_amended :
    (extract_clauses scenario1.data).map (fun c => (c.clause_id, c.category, c.amounts))
      = [(("2").data, ("payment").data, [("Rs. 5,00,000").data])] := by decide

/-- C1 amended: whenever the assessment produces at least one finding,
the report's overall score is the claim's boosted mean *rounded to one
decimal place*; the findings list is sorted by descending score and is
stable (each score class keeps its discovery order); and
high_risk_count is the number of CRITICAL plus the number of HIGH
findings. -/
theorem overall_score_amended (st : AssessorState) (text : Str) (clauses : List ClauseDict)
    (hne : collectFindings text clauses ≠ []) :
    (assess_contract st text clauses).1.overall_score
        = pyRound 1 (boostedAvg (collectFindings text clauses))
      ∧ List.Pairwise (fun a b => b.score ≤ a.score)
          (assess_contract st text clauses).1.findings
      ∧ (∀ q : ℚ,
          ((assess_contract st text clauses).1.findings).filter (fun f => decide (f.score = q))
            = (collectFindings text clauses).filter (fun f => decide (f.score = q)))
      ∧ (assess_contract st text clauses).1.high_risk_count
          = countLevel (collectFindings text clauses) .CRITICAL
            + countLevel (collectFindings text clauses) .HIGH := by
  have hE : (collectFindings text clauses).isEmpty = false := by
    cases h : collectFindings text clauses with
    | nil => exact absurd h hne
    | cons a t => rfl
  refine ⟨?_, ?_, ?_, ?_⟩
  · simp [assess_contract, calculate_overall_score, hE]
  · simp only [assess_contract, calculate_overall_score, hE, Bool.false_eq_true, if_false]
    exact sortFindingsDesc_sorted _
  · intro q
    simp only [assess_contract, calculate_overall_score, hE, Bool.false_eq_true, if_false]
    exact sortFindingsDesc_filter q _
  · simp [assess_contract, calculate_overall_score, hE]

/-- Witness for the amended C1 at a concrete input: the empty document
yields the five missing-protection findings, and the theorem applies. -/
theorem overall_score_amended_witness :
    collectFindings [] [] ≠ [] ∧
      (assess_contract assessorInit [] []).1.overall_score
        = pyRound 1 (boostedAvg (collectFindings [] [])) :=
  ⟨by decide, (overall_score_amended assessorInit [] [] (by decide)).1⟩

set_option maxRecDepth 100000 in
/-- C1 counterexample: on the document "arbitration notice period" the
three findings average 11/3, but the stored overall score is the
rounded 3.7, so the claim's unrounded equation fails. -/
theorem overall_score_rounding_counterexample :
    (assess_contract assessorInit roundingDoc.data []).1.overall_score
        ≠ boostedAvg (collectFindings roundingDoc.data [])
      ∧ (assess_contract assessorInit roundingDoc.data []).1.overall_score = 37/10
      ∧ boostedAvg (collectFindings roundingDoc.data []) = 11/3 := by
  have h1 : (assess_contract assessorInit roundingDoc.data []).1.overall_score = 37/10 := by
    decide
  have h2 : boostedAvg (collectFindings roundingDoc.data []) = 11/3 := by decide
  refine ⟨?_, h1, h2⟩
  rw [h1, h2]
  decide

/-- C6 amended: the report's overall level is obtained by applying the
score thresholds to the boosted average *before* it is rounded to one
decimal for storage (with the fixed baseline 2 when there are no
findings); applying them to the stored, rounded overall score can
differ. -/
theorem overall_level_amended (st : AssessorState) (text : Str) (clauses : List ClauseDict) :
    (assess_contract st text clauses).1.overall_level
      = score_to_level (preRoundScore (collectFindings text clauses)) := by
  cases h : collectFindings text clauses with
  | nil =>
    have h2 : score_to_level 2 = RiskLevel.LOW := by decide
    simp [assess_contract, calculate_overall_score, preRoundScore, h, h2]
  | cons a t =>
    have hE : (collectFindings text clauses).isEmpty = false := by rw [h]; rfl
    simp [assess_contract, calculate_overall_score, preRoundScore, hE, h]

set_option maxRecDepth 200000 in
/-- C6 counterexample: on `levelCrossDoc` the boosted average is
175/22 ≈ 7.95 (level HIGH), but the stored overall score is the
rounded 8.0, which the thresholds map to CRITICAL — so the claim that
`overall_level` follows from the report's `overall_score` fails. -/
theorem overall_level_threshold_counterexample :
    (assess_contract assessorInit levelCrossDoc.data []).1.overall_level = RiskLevel.HIGH
      ∧ score_to_level ((assess_contract assessorInit levelCrossDoc.data []).1.overall_score)
          = RiskLevel.CRITICAL
      ∧ (assess_contract assessorInit levelCrossDoc.data []).1.overall_score = 8 := by
  decide

set_option maxRecDepth 100000 in
/-- C4 counterexample: on the document "salary" the Employment
Agreement profile scores 1, so the claim's value is
1 / (135 · 0.3) = 2/81 ≈ 0.0247, but the classifier stores the
two-decimal rounding 0.02 = 1/50. -/
theorem confidence_rounding_counterexample :
    (classify (("salary").data)).confidence ≠ claimedConfidenceC4 (("salary").data)
      ∧ (classify (("salary").data)).confidence = 1/50
      ∧ claimedConfidenceC4 (("salary").data) = 2/81 := by
  have h1 : (classify (("salary").data)).confidence = 1/50 := by decide
  have h2 : claimedConfidenceC4 (("salary").data) = 2/81 := by decide
  refine ⟨?_, h1, h2⟩
  rw [h1, h2]
  decide

/-- C4 amended: whenever some contract type attains a nonzero score,
the returned confidence equals the claim's normalized quotient
`min(1, best_score / (max_possible · 0.3))` rounded to two decimal
places. -/
theorem confidence_amended (text : Str) (hne : classifyScores text ≠ []) :
    (classify text).confidence = pyRound 2 (claimedConfidenceC4 text) := by
  cases h : classifyScores text with
  | nil => exact absurd h hne
  | cons c t => simp [classify, claimedConfidenceC4, h]

/-- Witness for the amended C4 at the concrete document "salary". -/
theorem confidence_amended_witness :
    classifyScores (("salary").data) ≠ []
      ∧ (classify (("salary").data)).confidence
          = pyRound 2 (claimedConfidenceC4 (("salary").data)) :=
  ⟨by decide, confidence_amended (("salary").data) (by decide)⟩

/-- C10: `get_clause_risk_score` returns (2, LOW, []) exactly when no
risk pattern matches the lower-cased clause; otherwise it returns the
maximum of the matched types' weights (5 for a type absent from the
weight table), that maximum's severity level, and the matched types in
catalog order. -/
theorem clause_risk_score_spec (content : Str) :
    (get_clause_risk_score content
        = if matchedRiskTypes content = [] then (2, RiskLevel.LOW, [])
          else (maxWeightOf (matchedRiskTypes content),
            score_to_level (maxWeightOf (matchedRiskTypes content)), matchedRiskTypes content))
      ∧ (get_clause_risk_score content = (2, RiskLevel.LOW, []) ↔ matchedRiskTypes content = [])
      ∧ (matchedRiskTypes content ≠ [] →
          maxWeightOf (matchedRiskTypes content)
              ∈ (matchedRiskTypes content).map (fun f => (lookupS RISK_WEIGHTS f).getD 5)
            ∧ ∀ w ∈ (matchedRiskTypes content).map (fun f => (lookupS RISK_WEIGHTS f).getD 5),
                w ≤ maxWeightOf (matchedRiskTypes content)) := by
  have h0 : (RISK_PATTERNS.foldl (fun acc rp =>
      if rp.2.patterns.any (fun p => reTest cfgCI p (asciiLower content)) then acc ++ [rp.1.data]
      else acc) ([] : List Str)) = matchedRiskTypes content := by
    rw [foldl_append_filter (fun rp =>
      rp.2.patterns.any (fun p => reTest cfgCI p (asciiLower content)))
      (fun rp => rp.1.data) RISK_PATTERNS []]
    rfl
  have heq : get_clause_risk_score content
      = if matchedRiskTypes content = [] then (2, RiskLevel.LOW, [])
        else (maxWeightOf (matchedRiskTypes content),
          score_to_level (maxWeightOf (matchedRiskTypes content)), matchedRiskTypes content) := by
    simp only [get_clause_risk_score, h0]
    cases h : matchedRiskTypes content with
    | nil => simp
    | cons a t => simp [maxWeightOf]
  refine ⟨heq, ?_, ?_⟩
  · constructor
    · intro h
      by_contra hne
      rw [heq, if_neg hne] at h
      have := congrArg (fun p => p.2.2) h
      simp at this
      exact hne this
    · intro h
      rw [heq, if_pos h]
  · intro hne
    have hmap : (matchedRiskTypes content).map (fun f => (lookupS RISK_WEIGHTS f).getD 5) ≠ [] := by
      intro h
      exact hne (List.map_eq_nil_iff.mp h)
    exact pyMaxQ_spec _ hmap

/-- Witness for C10's conditional part at a clause containing
"unlimited liability". -/
theorem clause_risk_score_spec_witness :
    matchedRiskTypes (("unlimited liability").data) ≠ []
      ∧ maxWeightOf (matchedRiskTypes (("unlimited liability").data))
          ∈ (matchedRiskTypes (("unlimited liability").data)).map
              (fun f => (lookupS RISK_WEIGHTS f).getD 5) :=
  ⟨by decide, ((clause_risk_score_spec (("unlimited liability").data)).2.2 (by decide)).1⟩

/-- A clause dictionary carrying the extractor-produced indicator
`ip_assignment`, which is not a key of the assessor's weight table. -/
def ipClause : ClauseDict :=
  { clause_id := some (("7").data)
    number := none
    title := []
    content := ("work made for hire").data
    category := ("general").data
    risk_indicators := [("ip_assignment").data] }

/-- C3 counterexample: the clause extractor can place `ip_assignment`
in `risk_indicators` (it does so for the text "work made for hire"),
but that indicator is not a key of RISK_WEIGHTS, so the per-clause
pass emits no finding at all for the clause — refuting the claim that
one finding is emitted per indicator. -/
theorem clause_pass_counterexample :
    ("ip_assignment").data ∈ ipClause.risk_indicators
      ∧ find_risk_indicators (("work made for hire").data) = [("ip_assignment").data]
      ∧ lookupS RISK_WEIGHTS (("ip_assignment").data) = none
      ∧ analyze_clause_risks [] ipClause = [] := by decide

/-- Auxiliary for C3: for a candidate `c` carrying the target
(clause id, risk type) pair, the duplicate check of the per-clause
pass succeeds exactly when a finding with that pair is already
present. -/
theorem any_pair_iff (fs : List RiskFinding) (c : RiskFinding) (cid rt : Str)
    (hpr : c.clause_id = cid ∧ c.risk_type = rt) :
    ((fs.any (fun g => decide (g.clause_id = c.clause_id ∧ g.risk_type = c.risk_type))) = true
      ↔ 0 < fs.countP (fun f => decide (f.clause_id = cid ∧ f.risk_type = rt))) := by
  rw [List.any_eq_true, List.countP_pos_iff]
  constructor
  · rintro ⟨g, hg, hgp⟩
    refine ⟨g, hg, ?_⟩
    simp only [decide_eq_true_eq] at hgp ⊢
    exact ⟨hgp.1.trans hpr.1, hgp.2.trans hpr.2⟩
  · rintro ⟨g, hg, hgp⟩
    refine ⟨g, hg, ?_⟩
    simp only [decide_eq_true_eq] at hgp ⊢
    exact ⟨hgp.1.trans hpr.1.symm, hgp.2.trans hpr.2.symm⟩

/-- Auxiliary for C3: adding a candidate that does not carry the
target pair never changes the count of the target pair. -/
theorem countP_addClauseFinding_other (fs : List RiskFinding) (c : RiskFinding) (cid rt : Str)
    (hpr : ¬ (c.clause_id = cid ∧ c.risk_type = rt)) :
    (addClauseFinding fs c).countP (fun f => decide (f.clause_id = cid ∧ f.risk_type = rt))
      = fs.countP (fun f => decide (f.clause_id = cid ∧ f.risk_type = rt)) := by
  unfold addClauseFinding
  split_ifs with h
  · rfl
  · rw [List.countP_append]
    simp [List.countP_cons, hpr]

/-- Auxiliary for C3: once a finding with the target pair is present,
the per-clause fold leaves that pair's count unchanged. -/
theorem countP_foldl_add_of_pos (cid rt : Str) :
    ∀ (cands fs : List RiskFinding),
      0 < fs.countP (fun f => decide (f.clause_id = cid ∧ f.risk_type = rt)) →
      ((cands.foldl addClauseFinding fs).countP
          (fun f => decide (f.clause_id = cid ∧ f.risk_type = rt))
        = fs.countP (fun f => decide (f.clause_id = cid ∧ f.risk_type = rt)))
  | [], _, _ => rfl
  | c :: rest, fs, hpos => by
    simp only [List.foldl]
    by_cases hpr : c.clause_id = cid ∧ c.risk_type = rt
    · have hany := (any_pair_iff fs c cid rt hpr).mpr hpos
      have hstep : addClauseFinding fs c = fs := by
        unfold addClauseFinding
        rw [if_pos hany]
      rw [hstep, countP_foldl_add_of_pos cid rt rest fs hpos]
    · have hstep := countP_addClauseFinding_other fs c cid rt hpr
      rw [countP_foldl_add_of_pos cid rt rest (addClauseFinding fs c) (by rw [hstep]; exact hpos),
        hstep]

/-- Auxiliary for C3: if some candidate carries the target pair, the
per-clause fold leaves exactly `max (previous count) 1` findings with
that pair. -/
theorem countP_foldl_add (cid rt : Str) :
    ∀ (cands fs : List RiskFinding),
      (∃ c ∈ cands, c.clause_id = cid ∧ c.risk_type = rt) →
      ((cands.foldl addClauseFinding fs).countP
          (fun f => decide (f.clause_id = cid ∧ f.risk_type = rt))
        = max (fs.countP (fun f => decide (f.clause_id = cid ∧ f.risk_type = rt))) 1)
  | [], _, hex => absurd hex (by simp)
  | c :: rest, fs, hex => by
    simp only [List.foldl]
    by_cases hpr : c.clause_id = cid ∧ c.risk_type = rt
    · by_cases hpos : 0 < fs.countP (fun f => decide (f.clause_id = cid ∧ f.risk_type = rt))
      · have hany := (any_pair_iff fs c cid rt hpr).mpr hpos
        have hstep : addClauseFinding fs c = fs := by
          unfold addClauseFinding
          rw [if_pos hany]
        rw [hstep, countP_foldl_add_of_pos cid rt rest fs hpos]
        omega
      · have hany : (fs.any
            (fun g => decide (g.clause_id = c.clause_id ∧ g.risk_type = c.risk_type))) = false := by
          rcases h2 : fs.any
              (fun g => decide (g.clause_id = c.clause_id ∧ g.risk_type = c.risk_type)) with _ | _
          · rfl
          · exact absurd ((any_pair_iff fs c cid rt hpr).mp h2) hpos
        have hstep : addClauseFinding fs c = fs ++ [c] := by
          unfold addClauseFinding
          rw [if_neg (by rw [hany]; exact Bool.false_ne_true)]
        have hzero : fs.countP (fun f => decide (f.clause_id = cid ∧ f.risk_type = rt)) = 0 := by
          omega
        have hone : (fs ++ [c]).countP (fun f => decide (f.clause_id = cid ∧ f.risk_type = rt))
            = 1 := by
          rw [List.countP_append, hzero]
          simp [List.countP_cons, hpr]
        rw [hstep, countP_foldl_add_of_pos cid rt rest (fs ++ [c]) (by rw [hone]; omega), hone,
          hzero]
        decide
    · have hstep := countP_addClauseFinding_other fs c cid rt hpr
      have hex2 : ∃ c2 ∈ rest, c2.clause_id = cid ∧ c2.risk_type = rt := by
        rcases hex with ⟨c2, hc2, hp2⟩
        rcases List.mem_cons.mp hc2 with rfl | hc2
        · exact absurd hp2 hpr
        · exact ⟨c2, hc2, hp2⟩
      rw [countP_foldl_add cid rt rest (addClauseFinding fs c) hex2, hstep]

/-- C3 amended: for every prior findings list, clause and indicator,
if the indicator is a key of RISK_WEIGHTS then the per-clause pass
leaves exactly one finding carrying that clause's id and the
indicator's title-cased risk type (none is added when one is already
present — findings are de-duplicated by the (clause_id, risk_type)
pair); indicators absent from the weight table (such as
`ip_assignment` and `auto_renewal`) are dropped. -/
theorem clause_pass_amended (fs : List RiskFinding) (cl : ClauseDict) (ind : Str) (w : ℚ)
    (hmem : ind ∈ cl.risk_indicators) (hw : lookupS RISK_WEIGHTS ind = some w) :
    (analyze_clause_risks fs cl).countP
        (fun f => decide (f.clause_id = clauseDictId cl
          ∧ f.risk_type = pyTitle (underscoresToSpaces ind)))
      = max (fs.countP (fun f => decide (f.clause_id = clauseDictId cl
          ∧ f.risk_type = pyTitle (underscoresToSpaces ind)))) 1 := by
  apply countP_foldl_add
  refine ⟨mkClauseFinding cl ind w, ?_, rfl, rfl⟩
  apply List.mem_filterMap.mpr
  refine ⟨ind, hmem, ?_⟩
  rw [hw]

/-- A clause dictionary carrying the weight-table indicator
`unlimited_liability`. -/
def ulClause : ClauseDict :=
  { clause_id := some (("3").data)
    number := none
    title := []
    content := ("unlimited liability for everything").data
    category := ("general").data
    risk_indicators := [("unlimited_liability").data] }

/-- Witness for the amended C3 at a concrete clause. -/
theorem clause_pass_amended_witness :
    ("unlimited_liability").data ∈ ulClause.risk_indicators
      ∧ lookupS RISK_WEIGHTS (("unlimited_liability").data) = some 9
      ∧ (analyze_clause_risks [] ulClause).countP
          (fun f => decide (f.clause_id = clauseDictId ulClause
            ∧ f.risk_type = pyTitle (underscoresToSpaces (("unlimited_liability").data))))
        = max (([] : List RiskFinding).countP (fun f => decide (f.clause_id = clauseDictId ulClause
            ∧ f.risk_type = pyTitle (underscoresToSpaces (("unlimited_liability").data))))) 1 :=
  ⟨by decide, by decide,
    clause_pass_amended [] ulClause (("unlimited_liability").data) 9 (by decide) (by decide)⟩

/-- Catalog facts used for the confidence bound, checked by
computation over the ten profiles. -/
theorem catalog_bound_all :
    CONTRACT_PATTERNS.all (fun p => decide (1 ≤ max_possible p ∧ max_possible p ≤ 135
      ∧ ¬ (p.pname.data = ("Unknown").data))) = true := by decide

/-- Bounds of the two-decimal rounding on the interval reachable by a
winning type's normalized confidence. -/
theorem pyRound2_bounds (y : ℚ) (hlo : (2/81 : ℚ) ≤ y) (hhi : y ≤ 1) :
    (1/50 : ℚ) ≤ pyRound 2 y ∧ pyRound 2 y ≤ 1 := by
  have h2 : ((2:ℤ) : ℚ) ≤ y * 100 := by push_cast; linarith
  have h100 : y * 100 ≤ ((100:ℤ) : ℚ) := by push_cast; linarith
  have hlq : ((2:ℚ)) ≤ (rhe (y * 100) : ℚ) := by exact_mod_cast rhe_ge_of_ge _ _ h2
  have hrq : (rhe (y * 100) : ℚ) ≤ 100 := by exact_mod_cast rhe_le_of_le _ _ h100
  have hpr : pyRound 2 y = (rhe (y * 100) : ℚ) / 100 := by
    unfold pyRound
    norm_num
  rw [hpr]
  constructor <;> linarith

/-- C5: for every input text the classifier's confidence lies in
[0, 1], and it is 0 exactly when the contract type is "Unknown". -/
theorem classification_confidence_bounds (text : Str) :
    (0 ≤ (classify text).confidence ∧ (classify text).confidence ≤ 1)
      ∧ ((classify text).confidence = 0 ↔ (classify text).contract_type = ("Unknown").data) := by
  cases h : classifyScores text with
  | nil => simp [classify, h]
  | cons c t =>
    have hconf : (classify text).confidence
        = pyRound 2 (min 1 (((maxByFirst (fun x => x.2.1) c t).2.1 : ℚ)
            / ((max_possible (maxByFirst (fun x => x.2.1) c t).1 : ℚ) * (3/10)))) := by
      simp [classify, h]
    have htype : (classify text).contract_type
        = (maxByFirst (fun x => x.2.1) c t).1.pname.data := by
      simp [classify, h]
    have hbestmem : maxByFirst (fun x => x.2.1) c t ∈ classifyScores text := by
      rw [h]
      rcases maxByFirst_mem (fun x => x.2.1) c t with h2 | h2
      · rw [h2]; exact List.mem_cons_self _ _
      · exact List.mem_cons_of_mem _ h2
    rcases List.mem_filterMap.mp hbestmem with ⟨p, hp, hpf⟩
    simp only [] at hpf
    by_cases hsc : 0 < (typeScore (asciiLower text) p).1
    swap
    · rw [if_neg hsc] at hpf
      exact absurd hpf (by simp)
    rw [if_pos hsc] at hpf
    have hbesteq := Option.some.inj hpf
    have hb1 : (maxByFirst (fun x => x.2.1) c t).1 = p := by rw [← hbesteq]
    have hb2 : (maxByFirst (fun x => x.2.1) c t).2.1 = (typeScore (asciiLower text) p).1 := by
      rw [← hbesteq]
    have hcat := List.all_eq_true.mp catalog_bound_all p hp
    have hcat2 : 1 ≤ max_possible p ∧ max_possible p ≤ 135
        ∧ ¬ (p.pname.data = ("Unknown").data) := of_decide_eq_true hcat
    have hsnat : 1 ≤ (maxByFirst (fun x => x.2.1) c t).2.1 := by rw [hb2]; omega
    have hs : (1 : ℚ) ≤ ((maxByFirst (fun x => x.2.1) c t).2.1 : ℚ) := by exact_mod_cast hsnat
    have hmp135 : (max_possible (maxByFirst (fun x => x.2.1) c t).1 : ℚ) ≤ 135 := by
      rw [hb1]; exact_mod_cast hcat2.2.1
    have hmp1 : (1 : ℚ) ≤ (max_possible (maxByFirst (fun x => x.2.1) c t).1 : ℚ) := by
      rw [hb1]; exact_mod_cast hcat2.1
    have hd : (0:ℚ) < (max_possible (maxByFirst (fun x => x.2.1) c t).1 : ℚ) * (3/10) := by
      nlinarith
    have hfrac : (2/81 : ℚ) ≤ ((maxByFirst (fun x => x.2.1) c t).2.1 : ℚ)
        / ((max_possible (maxByFirst (fun x => x.2.1) c t).1 : ℚ) * (3/10)) := by
      rw [div_le_div_iff₀ (by norm_num) hd]
      linarith
    have hylo : (2/81:ℚ) ≤ min 1 (((maxByFirst (fun x => x.2.1) c t).2.1 : ℚ)
        / ((max_possible (maxByFirst (fun x => x.2.1) c t).1 : ℚ) * (3/10))) :=
      le_min (by norm_num) hfrac
    rcases pyRound2_bounds _ hylo (min_le_left _ _) with ⟨hcl, hcu⟩
    refine ⟨⟨?_, ?_⟩, ?_⟩
    · rw [hconf]; linarith
    · rw [hconf]; exact hcu
    · rw [hconf, htype]
      constructor
      · intro h0
        rw [h0] at hcl
        exact absurd hcl (by norm_num)
      · intro hteq
        rw [hb1] at hteq
        exact absurd hteq hcat2.2.2

/-! Lemmas for the segmentation claims. -/

theorem pyStrip_length_le (s : Str) : (pyStrip s).length ≤ s.length := by
  unfold pyStrip
  rw [List.length_reverse]
  refine le_trans (List.Sublist.length_le (List.dropWhile_sublist _)) ?_
  rw [List.length_reverse]
  exact List.Sublist.length_le (List.dropWhile_sublist _)

theorem sliceL_length_le (s : Str) (a b : Nat) : (sliceL s a b).length ≤ b - a := by
  unfold sliceL
  rw [List.length_take]
  exact min_le_left _ _

theorem reSearchAux_start_le (cfg : ReCfg) (fuel : Nat) (r : RE) :
    ∀ (rem : Str) (idx : Nat) (prev : Option Char) (x : Nat × Nat × Groups),
      reSearchAux cfg fuel r rem idx prev = some x → x.1 ≤ x.2.1
  | [], idx, prev, x, h => by
    simp only [reSearchAux, Option.map_eq_some'] at h
    rcases h with ⟨p, _, hx⟩
    rw [← hx]
    exact Nat.le_max_left _ _
  | c :: t, idx, prev, x, h => by
    simp only [reSearchAux] at h
    cases hm : reMatchHere cfg fuel r (c :: t) idx prev with
    | some p =>
      rw [hm] at h
      cases h
      exact Nat.le_max_left _ _
    | none =>
      rw [hm] at h
      exact reSearchAux_start_le cfg fuel r t (idx + 1) (some c) x h

theorem reFindIterAux_start_le (cfg : ReCfg) (mfuel : Nat) (r : RE) (s : Str) :
    ∀ (fuel : Nat) (rem : Str) (idx : Nat) (prev : Option Char),
      ∀ x ∈ reFindIterAux cfg mfuel r s fuel rem idx prev, x.1 ≤ x.2.1
  | 0, _, _, _ => by simp [reFindIterAux]
  | Nat.succ fuel, rem, idx, prev => by
    intro x hx
    simp only [reFindIterAux] at hx
    cases hs : reSearchAux cfg mfuel r rem idx prev with
    | none => rw [hs] at hx; simp at hx
    | some m =>
      obtain ⟨st, en, g⟩ := m
      rw [hs] at hx
      rcases List.mem_cons.mp hx with hx1 | hx
      · rw [hx1]
        exact reSearchAux_start_le cfg mfuel r rem idx prev _ hs
      · exact reFindIterAux_start_le cfg mfuel r s fuel _ _ _ x hx

theorem collectClauseMatches_start_le (text : Str) :
    ∀ m ∈ collectClauseMatches text, m.mstart ≤ m.mend := by
  intro m hm
  unfold collectClauseMatches at hm
  rcases List.mem_flatten.mp hm with ⟨l, hl, hml⟩
  rcases List.mem_map.mp hl with ⟨p, _, rfl⟩
  rcases List.mem_map.mp hml with ⟨x, hx, rfl⟩
  exact reFindIterAux_start_le cfgCIML _ p text _ text 0 none x hx

theorem insByStart_perm (m : ClauseMatch) :
    ∀ (l : List ClauseMatch), List.Perm (insByStart m l) (m :: l)
  | [] => List.Perm.refl _
  | g :: t => by
    simp only [insByStart]
    split_ifs with h
    · exact ((insByStart_perm m t).cons g).trans (List.Perm.swap m g t)
    · exact List.Perm.refl _

theorem sortByStart_perm : ∀ (l : List ClauseMatch), List.Perm (sortByStart l) l
  | [] => List.Perm.refl _
  | m :: t => by
    simp only [sortByStart, List.foldr]
    exact (insByStart_perm m _).trans ((sortByStart_perm t).cons m)

theorem insByStart_sorted (m : ClauseMatch) :
    ∀ (l : List ClauseMatch), List.Pairwise (fun a b => a.mstart ≤ b.mstart) l →
      List.Pairwise (fun a b => a.mstart ≤ b.mstart) (insByStart m l)
  | [], _ => List.pairwise_singleton _ m
  | g :: t, hp => by
    rcases List.pairwise_cons.mp hp with ⟨hg, ht⟩
    simp only [insByStart]
    split_ifs with h
    · refine List.pairwise_cons.mpr ⟨?_, insByStart_sorted m t ht⟩
      intro x hx
      rcases List.mem_cons.mp ((insByStart_perm m t).mem_iff.mp hx) with rfl | h2
      · exact le_of_lt h
      · exact hg x h2
    · refine List.pairwise_cons.mpr ⟨?_, hp⟩
      intro x hx
      rcases List.mem_cons.mp hx with rfl | h2
      · exact le_of_not_lt h
      · exact le_trans (le_of_not_lt h) (hg x h2)

theorem sortByStart_sorted :
    ∀ (l : List ClauseMatch), List.Pairwise (fun a b => a.mstart ≤ b.mstart) (sortByStart l)
  | [] => List.Pairwise.nil
  | m :: t => insByStart_sorted m _ (sortByStart_sorted t)

theorem buildClauses_start_mem (text : Str) :
    ∀ (ms : List ClauseMatch) (x : (Nat × Nat) × ExtractedClause),
      x ∈ buildClauses text ms → ∃ m ∈ ms, x.1.1 = m.mstart
  | [], x, hx => by simp [buildClauses] at hx
  | m :: rest, x, hx => by
    simp only [buildClauses] at hx
    split_ifs at hx with h
    · rcases buildClauses_start_mem text rest x hx with ⟨m2, hm2, he⟩
      exact ⟨m2, List.mem_cons_of_mem _ hm2, he⟩
    · rcases List.mem_cons.mp hx with rfl | hx
      · exact ⟨m, List.mem_cons_self _ _, rfl⟩
      · rcases buildClauses_start_mem text rest x hx with ⟨m2, hm2, he⟩
        exact ⟨m2, List.mem_cons_of_mem _ hm2, he⟩

/-- The emitted spans do not overlap and their starts strictly
increase (induction along the sorted match list). -/
theorem buildClauses_pairwise (text : Str) :
    ∀ (ms : List ClauseMatch),
      List.Pairwise (fun a b => a.mstart ≤ b.mstart) ms →
      (∀ m ∈ ms, m.mstart ≤ m.mend) →
      List.Pairwise (fun x y => x.1.2 ≤ y.1.1 ∧ x.1.1 < y.1.1) (buildClauses text ms)
  | [], _, _ => List.Pairwise.nil
  | m :: rest, hsort, hse => by
    rcases List.pairwise_cons.mp hsort with ⟨hm, hrest⟩
    have hse2 : ∀ m2 ∈ rest, m2.mstart ≤ m2.mend :=
      fun m2 h2 => hse m2 (List.mem_cons_of_mem _ h2)
    simp only [buildClauses]
    split_ifs with h
    · exact buildClauses_pairwise text rest hrest hse2
    · refine List.pairwise_cons.mpr ⟨?_, buildClauses_pairwise text rest hrest hse2⟩
      intro y hy
      rcases buildClauses_start_mem text rest y hy with ⟨m2, hm2, hy1⟩
      cases rest with
      | nil => simp at hm2
      | cons n rt =>
        have hcend : 20 ≤ n.mstart - m.mend := by
          have h20 : 20 ≤ lenK (pyStrip (sliceL text m.mend n.mstart)) := le_of_not_lt h
          rw [lenK_eq] at h20
          exact le_trans h20 (le_trans (pyStrip_length_le _) (sliceL_length_le _ _ _))
        have hnm2 : n.mstart ≤ m2.mstart := by
          rcases List.mem_cons.mp hm2 with rfl | hm2
          · exact le_refl _
          · exact (List.pairwise_cons.mp hrest).1 m2 hm2
        have hmse : m.mstart ≤ m.mend := hse m (List.mem_cons_self _ _)
        constructor
        · show n.mstart ≤ y.1.1
          rw [hy1]
          exact hnm2
        · show m.mstart < y.1.1
          rw [hy1]
          omega

theorem buildClauses_content_len (text : Str) :
    ∀ (ms : List ClauseMatch), ∀ x ∈ buildClauses text ms, 20 ≤ x.2.content.length
  | [], x, hx => by simp [buildClauses] at hx
  | m :: rest, x, hx => by
    simp only [buildClauses] at hx
    cases rest with
    | nil =>
      split_ifs at hx with h
      · simp [buildClauses] at hx
      · rcases List.mem_cons.mp hx with rfl | hx2
        · have h20 : 20 ≤ lenK (pyStrip (sliceL text m.mend (lenK text))) := le_of_not_lt h
          rw [lenK_eq] at h20
          simp only [mkClause, List.length_take]
          omega
        · simp [buildClauses] at hx2
    | cons n rt =>
      split_ifs at hx with h
      · exact buildClauses_content_len text (n :: rt) x hx
      · rcases List.mem_cons.mp hx with rfl | hx2
        · have h20 : 20 ≤ lenK (pyStrip (sliceL text m.mend n.mstart)) := le_of_not_lt h
          rw [lenK_eq] at h20
          simp only [mkClause, List.length_take]
          omega
        · exact buildClauses_content_len text (n :: rt) x hx2

/-- C7 amended: the emitted clauses' spans are non-overlapping with
strictly increasing start offsets, and every emitted clause's body is
at least 20 characters long after trimming *before* the 2000-character
truncation that produces the stored content — hence the stored content
has at least 20 characters, though trimming the stored content itself
can leave fewer (see the counterexample). -/
theorem segmentation_amended (text : Str) :
    List.Pairwise (fun x y => x.1.2 ≤ y.1.1 ∧ x.1.1 < y.1.1) (extractClausesSpans text)
      ∧ (extract_clauses text).all (fun c => decide (20 ≤ c.content.length)) = true := by
  constructor
  · apply buildClauses_pairwise
    · exact sortByStart_sorted _
    · intro m hm
      exact collectClauseMatches_start_le text m ((sortByStart_perm _).mem_iff.mp hm)
  · rw [List.all_eq_true]
    intro c hc
    rcases List.mem_map.mp hc with ⟨x, hx, rfl⟩
    exact decide_eq_true (buildClauses_content_len text _ x hx)

set_option maxRecDepth 1000000 in
/-- C7 counterexample: in `truncationDoc` the first clause's stripped
body is 2001 characters, so the stored content is cut at 2000
characters ending in spaces, and trimming the stored content leaves
just "ab" — fewer than 20 characters. -/
theorem segmentation_truncation_counterexample :
    ¬ (∀ c ∈ extract_clauses truncationDoc, 20 ≤ (pyStrip c.content).length) := by
  intro hall
  have hmap : (extract_clauses truncationDoc).map (fun c => pyStrip c.content)
      = [("ab").data, List.replicate 25 'p'] := by decide
  have hmem : ("ab").data ∈ (extract_clauses truncationDoc).map (fun c => pyStrip c.content) := by
    rw [hmap]
    exact List.mem_cons_self _ _
  rcases List.mem_map.mp hmem with ⟨c, hc, hfc⟩
  have h20 := hall c hc
  rw [hfc] at h20
  simp at h20

/-! Lemmas for the deduplication claim. -/

/-- Two findings differ on the (risk type, clause id, original text)
triple. -/
def neTriple (a b : RiskFinding) : Prop :=
  ¬ (a.risk_type = b.risk_type ∧ a.clause_id = b.clause_id ∧ a.original_text = b.original_text)

instance neTriple_dec : DecidableRel neTriple := fun a b => by
  unfold neTriple
  infer_instance

theorem neTriple_symm : Symmetric neTriple := by
  intro a b h hc
  exact h ⟨hc.1.symm, hc.2.1.symm, hc.2.2.symm⟩

/-- Invariant carried through the document-wide and per-clause passes:
all accumulated findings are pairwise distinct on the triple and none
carries the sentinel clause id "missing". -/
def findInv (fs : List RiskFinding) : Prop :=
  List.Pairwise neTriple fs ∧ ∀ f ∈ fs, f.clause_id ≠ ("missing").data

theorem addTextFinding_inv (fs : List RiskFinding) (f : RiskFinding)
    (hf : f.clause_id ≠ ("missing").data) (h : findInv fs) :
    findInv (addTextFinding fs f) := by
  unfold addTextFinding
  split_ifs with hdup
  · exact h
  · rw [List.any_eq_true] at hdup
    constructor
    · rw [List.pairwise_append]
      refine ⟨h.1, List.pairwise_singleton _ f, ?_⟩
      intro g hg x hx hc
      rw [List.mem_singleton] at hx
      subst hx
      refine hdup ⟨g, hg, ?_⟩
      simp only [decide_eq_true_eq]
      exact ⟨hc.1, hc.2.2⟩
    · intro x hx
      rcases List.mem_append.mp hx with hx | hx
      · exact h.2 x hx
      · rw [List.mem_singleton] at hx
        subst hx
        exact hf

theorem foldl_addTextFinding_inv :
    ∀ (cands fs : List RiskFinding), findInv fs →
      (∀ c ∈ cands, c.clause_id ≠ ("missing").data) →
      findInv (cands.foldl addTextFinding fs)
  | [], fs, h, _ => h
  | c :: t, fs, h, hc => by
    simp only [List.foldl]
    exact foldl_addTextFinding_inv t _
      (addTextFinding_inv fs c (hc c (List.mem_cons_self _ _)) h)
      (fun x hx => hc x (List.mem_cons_of_mem _ hx))

theorem addClauseFinding_inv (fs : List RiskFinding) (f : RiskFinding)
    (hf : f.clause_id ≠ ("missing").data) (h : findInv fs) :
    findInv (addClauseFinding fs f) := by
  unfold addClauseFinding
  split_ifs with hdup
  · exact h
  · rw [List.any_eq_true] at hdup
    constructor
    · rw [List.pairwise_append]
      refine ⟨h.1, List.pairwise_singleton _ f, ?_⟩
      intro g hg x hx hc
      rw [List.mem_singleton] at hx
      subst hx
      refine hdup ⟨g, hg, ?_⟩
      simp only [decide_eq_true_eq]
      exact ⟨hc.2.1, hc.1⟩
    · intro x hx
      rcases List.mem_append.mp hx with hx | hx
      · exact h.2 x hx
      · rw [List.mem_singleton] at hx
        subst hx
        exact hf

theorem foldl_addClauseFinding_inv :
    ∀ (cands fs : List RiskFinding), findInv fs →
      (∀ c ∈ cands, c.clause_id ≠ ("missing").data) →
      findInv (cands.foldl addClauseFinding fs)
  | [], fs, h, _ => h
  | c :: t, fs, h, hc => by
    simp only [List.foldl]
    exact foldl_addClauseFinding_inv t _
      (addClauseFinding_inv fs c (hc c (List.mem_cons_self _ _)) h)
      (fun x hx => hc x (List.mem_cons_of_mem _ hx))

theorem docFindingCandidates_id (text : Str) :
    ∀ f ∈ docFindingCandidates text, f.clause_id = ("general").data := by
  intro f hf
  unfold docFindingCandidates at hf
  rcases List.mem_flatten.mp hf with ⟨l, hl, hfl⟩
  rcases List.mem_map.mp hl with ⟨rp, _, rfl⟩
  rcases List.mem_flatten.mp hfl with ⟨l2, hl2, hfl2⟩
  rcases List.mem_map.mp hl2 with ⟨p, _, rfl⟩
  rcases List.mem_map.mp hfl2 with ⟨m, _, rfl⟩
  rfl

theorem clauseFindingCandidates_id (cl : ClauseDict) :
    ∀ f ∈ clauseFindingCandidates cl, f.clause_id = clauseDictId cl := by
  intro f hf
  unfold clauseFindingCandidates at hf
  rcases List.mem_filterMap.mp hf with ⟨ind, _, hind⟩
  cases hl : lookupS RISK_WEIGHTS ind with
  | none => rw [hl] at hind; cases hind
  | some w =>
    rw [hl] at hind
    cases hind
    rfl

theorem missingFindings_pairwise (text : Str) :
    List.Pairwise neTriple (missingFindings text) := by
  have hall : List.Pairwise neTriple (missing_checks.map missingFindingFor) := by decide
  unfold missingFindings
  exact List.Pairwise.sublist (List.Sublist.map _ (List.filter_sublist _)) hall

theorem missingFindings_id (text : Str) :
    ∀ f ∈ missingFindings text, f.clause_id = ("missing").data := by
  intro f hf
  unfold missingFindings at hf
  rcases List.mem_map.mp hf with ⟨c, _, rfl⟩
  rfl

theorem foldl_analyze_clause_inv :
    ∀ (cls : List ClauseDict) (fs : List RiskFinding), findInv fs →
      (∀ cl ∈ cls, clauseDictId cl ≠ ("missing").data) →
      findInv (cls.foldl analyze_clause_risks fs)
  | [], fs, h, _ => h
  | cl :: t, fs, h, hc => by
    simp only [List.foldl]
    refine foldl_analyze_clause_inv t _ ?_ (fun x hx => hc x (List.mem_cons_of_mem _ hx))
    unfold analyze_clause_risks
    refine foldl_addClauseFinding_inv _ fs h (fun c hcc => ?_)
    rw [clauseFindingCandidates_id cl c hcc]
    exact hc cl (List.mem_cons_self _ _)

/-- C8 amended: the two dedup guards do make the findings pairwise
distinct on (risk type, clause id, original text) — but only for
clause lists that never use the sentinel clause id "missing", because
the missing-protection pass appends its findings without any duplicate
check. `app.py` always passes ids of the form "C1", "C2", ..., so the
guarantee holds for the real pipeline; a clause dict with id "missing"
breaks it (see the counterexample). -/
theorem dedup_amended (st : AssessorState) (text : Str) (clauses : List ClauseDict)
    (hcl : ∀ cl ∈ clauses, clauseDictId cl ≠ ("missing").data) :
    List.Pairwise neTriple (assess_contract st text clauses).1.findings := by
  have h1 : findInv (analyze_text_risks text []) := by
    unfold analyze_text_risks
    refine foldl_addTextFinding_inv _ [] ⟨List.Pairwise.nil, by intro f hf; cases hf⟩ ?_
    intro c hc
    rw [docFindingCandidates_id text c hc]
    decide
  have h2 : findInv (if clauses.isEmpty then analyze_text_risks text []
      else clauses.foldl analyze_clause_risks (analyze_text_risks text [])) := by
    split_ifs with he
    · exact h1
    · exact foldl_analyze_clause_inv clauses _ h1 hcl
  have hpw : List.Pairwise neTriple (collectFindings text clauses) := by
    unfold collectFindings check_missing_protections
    rw [List.pairwise_append]
    refine ⟨h2.1, missingFindings_pairwise text, ?_⟩
    intro g hg x hx hc
    exact h2.2 g hg (hc.2.1.trans (missingFindings_id text x hx))
  show (calculate_overall_score (collectFindings text clauses)).findings.Pairwise neTriple
  unfold calculate_overall_score
  split_ifs with he
  · exact List.Pairwise.nil
  · exact (List.Perm.pairwise_iff (fun hab => neTriple_symm hab) (sortFindingsDesc_perm _)).mpr hpw

theorem dedup_amended_witness :
    (∀ cl ∈ ([] : List ClauseDict), clauseDictId cl ≠ ("missing").data)
      ∧ List.Pairwise neTriple (assess_contract assessorInit [] []).1.findings :=
  ⟨fun cl hcl => absurd hcl (List.not_mem_nil cl),
   dedup_amended assessorInit [] [] (fun cl hcl => absurd hcl (List.not_mem_nil cl))⟩

/-- A clause dictionary whose id collides with the sentinel id of the
missing-protection pass. -/
def missingIdClause : ClauseDict :=
  { clause_id := some (("missing").data)
    number := none
    title := []
    content := ("[Not found in contract]").data
    category := ("general").data
    risk_indicators := [("missing_liability_cap").data] }

set_option maxRecDepth 100000 in
/-- C8 counterexample: on an empty document with one clause whose id is
"missing" and whose content is "[Not found in contract]", the clause
pass and the missing-protection pass emit two findings with identical
(risk type, clause id, original text) — the dedup guarantee fails. -/
theorem dedup_counterexample :
    ¬ List.Pairwise neTriple (assess_contract assessorInit [] [missingIdClause]).1.findings := by
  decide
